import Mathlib

/-!
# ESC32 serial command interpreter (`src/cli.c`)

A shallow embedding of the command table, the command lookup, the line editor
`cliCheck` and the handlers of `cli.c`, followed by theorems about them.

Conventions of the embedding

* A C string is the list of its bytes before the terminating NUL; a byte is a
  natural number.  Reading a byte past the end of such a list yields the NUL.
* `int` variables are integers (`Int`); none of the values that occur comes
  near the 32-bit limits.
* The serial output is the list of all bytes handed to `serialPrint` and
  `serialWrite`, in order.
* Functions of the C library (`bsearch`, `strncasecmp`, `sscanf`) and of the
  other firmware modules (`runDisarm`, ...) are not part of `cli.c`; the C
  library ones are written out after the C standard, the collaborators are
  parameters.
-/

namespace Esc32

/-! ## Strings -/

/-- Bytes of a string literal. -/
def str (s : String) : List Nat := s.toList.map Char.toNat

/-- C library `tolower` in the "C" locale. -/
def tolower (c : Nat) : Nat := if 65 ≤ c ∧ c ≤ 90 then c + 32 else c

/-- C library `strncasecmp(s1, s2, n)`: compares at most `n` bytes, folding
case, and stops at the first difference or at a NUL. -/
def strncasecmp : List Nat → List Nat → Nat → Int
  | _, _, 0 => 0
  | s1, s2, n + 1 =>
    let c1 := tolower (s1.headD 0)
    let c2 := tolower (s2.headD 0)
    if c1 ≠ c2 then (c1 : Int) - (c2 : Int)
    else if c1 = 0 then 0
    else strncasecmp s1.tail s2.tail n

/-- C library `strlen`. -/
def strlen (s : List Nat) : Nat := s.length

/-! ## The command table -/

/-- The handler functions named in `cliCommandTable`. -/
inductive CmdFunc where
  | cliFuncArm | cliFuncBeep | cliFuncBinary | cliFuncBoot | cliFuncConfig
  | cliFuncDisarm | cliFuncDuty | cliFuncHelp | cliFuncInput | cliFuncMode
  | cliFuncPos | cliFuncPwm | cliFuncRpm | cliFuncSet | cliFuncStart
  | cliFuncStatus | cliFuncStop | cliFuncTelemetry | cliFuncVer
  deriving DecidableEq, Repr

/-- One row of the table: `cliCommand_t` (name, params, cmdFunc). -/
structure cliCommand_t where
  name : List Nat
  params : List Nat
  cmdFunc : CmdFunc
  deriving DecidableEq, Repr

/-- The table `cliCommandTable`, in source order. -/
def cliCommandTable : List cliCommand_t :=
  [ ⟨str "arm", str "", .cliFuncArm⟩,
    ⟨str "beep", str "<frequency> <duration>", .cliFuncBeep⟩,
    ⟨str "binary", str "", .cliFuncBinary⟩,
    ⟨str "bootloader", str "", .cliFuncBoot⟩,
    ⟨str "config", str "[READ | WRITE | DEFAULT]", .cliFuncConfig⟩,
    ⟨str "disarm", str "", .cliFuncDisarm⟩,
    ⟨str "duty", str "<percent>", .cliFuncDuty⟩,
    ⟨str "help", str "", .cliFuncHelp⟩,
    ⟨str "input", str "[PWM | UART | I2C | CAN]", .cliFuncInput⟩,
    ⟨str "mode", str "[OPEN_LOOP | RPM | THRUST | SERVO]", .cliFuncMode⟩,
    ⟨str "pos", str "<degrees>", .cliFuncPos⟩,
    ⟨str "pwm", str "<microseconds>", .cliFuncPwm⟩,
    ⟨str "rpm", str "<target>", .cliFuncRpm⟩,
    ⟨str "set", str "LIST | [<PARAMETER> <value>]", .cliFuncSet⟩,
    ⟨str "start", str "", .cliFuncStart⟩,
    ⟨str "status", str "", .cliFuncStatus⟩,
    ⟨str "stop", str "", .cliFuncStop⟩,
    ⟨str "telemetry", str "<Hz>", .cliFuncTelemetry⟩,
    ⟨str "version", str "", .cliFuncVer⟩ ]

/-- The macro `CLI_N_CMDS`: number of rows of the table. -/
def CLI_N_CMDS : Nat := cliCommandTable.length

/-- The comparator `cliCommandComp(c1, c2)`: `c1` is the search key (its name
is the needle), `c2` a table row; the comparison is cut at the length of the
row name. -/
def cliCommandComp (cmd1 cmd2 : List Nat) : Int :=
  strncasecmp cmd1 cmd2 (strlen cmd2)

/-- The loop of the C library `bsearch` over the index interval `[lo, hi)`:
probe the middle row, return it on 0, continue left on a negative and right on
a positive comparison.  `fuel` bounds the number of probes. -/
def bsearchLoop {α : Type} (compar : α → Int) (base : List α) :
    Nat → Nat → Nat → Option α
  | 0, _, _ => none
  | fuel + 1, lo, hi =>
    if lo < hi then
      let mid := (lo + hi) / 2
      match base[mid]? with
      | none => none
      | some p =>
        let c := compar p
        if c < 0 then bsearchLoop compar base fuel lo mid
        else if c > 0 then bsearchLoop compar base fuel (mid + 1) hi
        else some p
    else none

/-- C library `bsearch(key, base, nmemb, size, compar)`, with the key folded
into the comparator. -/
def bsearch {α : Type} (compar : α → Int) (base : List α) (nmemb : Nat) : Option α :=
  bsearchLoop compar base nmemb 0 nmemb

/-- The lookup `cliCommandGet(name)`. -/
def cliCommandGet (name : List Nat) : Option cliCommand_t :=
  bsearch (fun row => cliCommandComp name row.name) cliCommandTable CLI_N_CMDS

/-- The lookup as the specification words it: the first row, in table order,
whose lower-cased name is a prefix of the lower-cased needle. -/
def specLinearScan (needle : List Nat) : Option cliCommand_t :=
  cliCommandTable.find? (fun row => (row.name.map tolower).isPrefixOf (needle.map tolower))

/-! ## Constants of the headers and terminal sequences -/

/-- Modelled from the spec: the interrupt byte `CLI_INTR` of `cli.h`, 0x03. -/
def CLI_INTR : Nat := 3

/-- Modelled from the spec: the backspace byte `CLI_BS` of `cli.h`, 0x08. -/
def CLI_BS : Nat := 8

/-- Modelled from the spec: the bell byte `CLI_BELL` of `cli.h`, 0x07. -/
def CLI_BELL : Nat := 7

/-- Modelled from the spec: CommandMode is one of CLI and BINARY (an enum of
`main.h`); only that the two values differ is used. -/
def CLI_MODE : Nat := 0

/-- Modelled from the spec: the second CommandMode, see `CLI_MODE`. -/
def BINARY_MODE : Nat := 1

/-- Modelled from the spec: EscState is ordered DISARMED < STOPPED < PRE-START
< STARTING < RUNNING (an enum of `run.h`, the index into `cliStates`). -/
def ESC_STATE_DISARMED : Nat := 0

/-- Modelled from the spec: the state STOPPED, see `ESC_STATE_DISARMED`. -/
def ESC_STATE_STOPPED : Nat := 1

/-- Modelled from the spec: InputMode is one of PWM, UART, I2C, CAN, OW (an
enum of `main.h`); a mode is the index of its name in `cliInputModes`. -/
def ESC_INPUT_PWM : Nat := 0

/-- Modelled from the spec: the input mode UART, see `ESC_INPUT_PWM`. -/
def ESC_INPUT_UART : Nat := 1

/-- Modelled from the spec: the input mode I2C, see `ESC_INPUT_PWM`. -/
def ESC_INPUT_I2C : Nat := 2

/-- Modelled from the spec: the input mode CAN, see `ESC_INPUT_PWM`. -/
def ESC_INPUT_CAN : Nat := 3

/-- Modelled from the spec: the input mode OW, see `ESC_INPUT_PWM`. -/
def ESC_INPUT_OW : Nat := 4

/-- The table `cliInputModes`. -/
def cliInputModes : List (List Nat) :=
  [str "PWM", str "UART", str "I2C", str "CAN", str "OW"]

/-- The sequence `cliHome`: cursor home. -/
def cliHome : List Nat := [0x1b, 0x5b, 0x48]

/-- The sequence `cliClear`: clear screen. -/
def cliClear : List Nat := [0x1b, 0x5b, 0x32, 0x4a]

/-- The sequence `cliClearEOL`: clear to end of line. -/
def cliClearEOL : List Nat := [0x1b, 0x5b, 0x4b]

/-- The sequence `cliClearEOS`: clear to end of screen. -/
def cliClearEOS : List Nat := [0x1b, 0x5b, 0x4a]

/-- The message `stopError`. -/
def stopError : List Nat := str "ESC must be stopped first\r\n"

/-! ## State -/

/-- Globals of the other firmware modules that `cli.c` reads or writes.
`aux` stands for the remaining ones (duty cycle, rpm, voltages, parameters),
which only the collaborators and the status report look at. -/
structure Esc where
  state : Nat
  inputMode : Nat
  runMode : Nat
  commandMode : Nat
  aux : Nat
  deriving DecidableEq, Repr

/-- What a command handler can change: the serial output produced so far, the
file-static `cliTelemetry`, the global `version` and the collaborators'
globals.  A handler receives a pointer into `cliBuf` but only reads through
it, so the line buffer is not part of this record. -/
structure Env where
  out : List Nat
  cliTelemetry : Int
  version : List Nat
  esc : Esc
  deriving DecidableEq, Repr

/-- Observation points of `cliCheck`, recorded in order of execution. -/
inductive Event where
  /-- An assignment `cliBuf[i] = ...`. -/
  | store (i : Int)
  /-- An evaluation of `runMilis % d`. -/
  | modulus (d : Int)
  /-- A call `cliCommandGet(cliBuf)` with the C string then held in `cliBuf`. -/
  | lookup (line : List Nat)
  /-- A call `cmd->cmdFunc(cmd, cliBuf + strlen(cmd->name))`. -/
  | call (f : CmdFunc) (cmdLine : List Nat)
  deriving DecidableEq, Repr

/-- The state of `cli.c`: the 32 bytes of `cliBuf`, the cursor `cliBufIndex`,
the handler-visible part, and the record of observation points. -/
structure Cli where
  cliBuf : List Nat
  cliBufIndex : Int
  env : Env
  trace : List Event
  deriving DecidableEq, Repr

/-- The functions of the other modules and of the C library that the handlers
call, and the handlers that are not written out below. -/
structure Collab where
  /-- The effect of `runDisarm(REASON_CLI)` on the collaborators' globals. -/
  runDisarm : Esc → Esc
  /-- Result of `sscanf(cmdLine, "%hu", &freq)`: the value stored in `freq`
  when the call returns 1, nothing otherwise. -/
  sscanf_hu : List Nat → Option Nat
  /-- The twelve formatted lines that `cliFuncStatus` prints. -/
  statusText : Esc → List Nat
  /-- Result of `sprintf(version, "%s.%d", VERSION, getBuildNumber())`. -/
  versionText : List Nat
  /-- A handler that is not written out: the text it prints and what it does
  to the collaborators' globals. -/
  other : CmdFunc → List Nat → Esc → List Nat × Esc

/-! ## Serial output -/

/-- Collaborator `serialPrint(str)`. -/
def serialPrint (s : List Nat) (e : Env) : Env := { e with out := e.out ++ s }

/-- Collaborator `serialWrite(c)`. -/
def serialWrite (c : Nat) (e : Env) : Env := { e with out := e.out ++ [c] }

/-- The function `cliUsage(cmd)`. -/
def cliUsage (cmd : cliCommand_t) (e : Env) : Env :=
  e |> serialPrint (str "usage: ") |> serialPrint cmd.name |> serialWrite 32
    |> serialPrint cmd.params |> serialPrint (str "\r\n")

/-! ## Handlers -/

/-- The function `cliFuncChangeInput(input)`. -/
def cliFuncChangeInput (input : Nat) (e : Env) : Env :=
  if e.esc.inputMode ≠ input then
    { e with esc := { e.esc with inputMode := input } }
      |> serialPrint (str "Input mode set to " ++ cliInputModes.getD input [] ++ str "\r\n")
  else e

/-- The handler `cliFuncBinary`. -/
def cliFuncBinary (e : Env) : Env :=
  if e.esc.state > ESC_STATE_STOPPED then serialPrint stopError e
  else
    let e := serialPrint (str "Entering binary command mode...\r\n") e
    { e with cliTelemetry := 0, esc := { e.esc with commandMode := BINARY_MODE } }

/-- The handler `cliFuncDisarm`. -/
def cliFuncDisarm (X : Collab) (e : Env) : Env :=
  { e with esc := X.runDisarm e.esc }
    |> cliFuncChangeInput ESC_INPUT_UART |> serialPrint (str "ESC disarmed\r\n")

/-- C library `isspace` in the "C" locale. -/
def isspace (c : Nat) : Bool := decide (c = 32 ∨ (9 ≤ c ∧ c ≤ 13))

/-- C library `sscanf(s, "%Ns", word)` with field width `N`: skips white
space, then stores the following run of at most `N` bytes that are not white
space; nothing (a return value other than 1) when the string ends first. -/
def sscanf_s (width : Nat) (s : List Nat) : Option (List Nat) :=
  let word := ((s.dropWhile isspace).takeWhile (fun c => !isspace c)).take width
  if word = [] then none else some word

/-- The handler `cliFuncInput`.  The loop runs over all five rows of
`cliInputModes` and stops at the first whose first three bytes match the
scanned word; `i` is that index, or 5.  (The C array `mode` has the size of a
pointer; the word is taken as scanned.) -/
def cliFuncInput (X : Collab) (cmd : cliCommand_t) (cmdLine : List Nat) (e : Env) : Env :=
  match sscanf_s 7 cmdLine with
  | none => cliUsage cmd e
  | some mode =>
    let i := cliInputModes.findIdx (fun m => decide (strncasecmp m mode 3 = 0))
    if i < cliInputModes.length then
      e |> cliFuncDisarm X |> cliFuncChangeInput i
    else cliUsage cmd e

/-- The handler `cliFuncStatus`. -/
def cliFuncStatus (X : Collab) (e : Env) : Env := serialPrint (X.statusText e.esc) e

/-- The handler `cliFuncTelemetry`; `scan` is the result of the `sscanf`. -/
def cliFuncTelemetry (scan : Option Nat) (cmd : cliCommand_t) (e : Env) : Env :=
  match scan with
  | none => cliUsage cmd e
  | some freq =>
    if freq > 100 then serialPrint (str "Frequency out of range: 0 => 100\r\n") e
    else if freq > 0 then
      { e with cliTelemetry := Int.tdiv 1000 (freq : Int) }
        |> serialPrint cliHome |> serialPrint cliClear |> serialWrite 10
    else { e with cliTelemetry := 0 }

/-- The handler `cliFuncVer`. -/
def cliFuncVer (e : Env) : Env :=
  serialPrint (str "ESC32 ver " ++ e.version ++ str "\r\n") e

/-- The call `cmd->cmdFunc(cmd, cmdLine)` through the function pointer of a
table row. -/
def cmdFunc (X : Collab) (cmd : cliCommand_t) (cmdLine : List Nat) (e : Env) : Env :=
  match cmd.cmdFunc with
  | .cliFuncBinary => cliFuncBinary e
  | .cliFuncDisarm => cliFuncDisarm X e
  | .cliFuncInput => cliFuncInput X cmd cmdLine e
  | .cliFuncStatus => cliFuncStatus X e
  | .cliFuncTelemetry => cliFuncTelemetry (X.sscanf_hu cmdLine) cmd e
  | .cliFuncVer => cliFuncVer e
  | f =>
    let r := X.other f cmdLine e.esc
    { e with out := e.out ++ r.1, esc := r.2 }

/-! ## The line editor -/

/-- The C string that starts at `cliBuf + off`: the bytes up to the first NUL. -/
def cstrAt (buf : List Nat) (off : Nat) : List Nat :=
  (buf.drop off).takeWhile (fun c => decide (c ≠ 0))

/-- The assignment `cliBuf[i] = v`. -/
def bufStore (buf : List Nat) (i : Int) (v : Nat) : List Nat :=
  if 0 ≤ i then buf.set i.toNat v else buf

/-- The function `cliPrompt`. -/
def cliPrompt (s : Cli) : Cli :=
  { s with env := serialPrint (str "\r\n> ") s.env, cliBuf := List.replicate 32 0,
           cliBufIndex := 0 }

/-- The `sprintf` conversion `%d`. -/
def fmtD (n : Int) : List Nat := str (toString n)

/-- The body of the telemetry `if` of `cliCheck`: one telemetry frame. -/
def telemetryFrame (X : Collab) (s : Cli) : Cli :=
  { s with env := s.env
      |> serialPrint cliHome
      |> serialPrint (str "Telemetry @ " ++ fmtD (Int.tdiv 1000 s.env.cliTelemetry)
            ++ str " Hz\r\n\n")
      |> cliFuncStatus X
      |> serialPrint (str "\n> ")
      |> serialPrint (cstrAt s.cliBuf 0)
      |> serialPrint cliClearEOL }

/-- The telemetry part of `cliCheck`:
`if (cliTelemetry && !(runMilis % cliTelemetry)) { ... }`.  The right operand
of `&&` is evaluated only when the left one is non-zero.  (For the periods
that occur, which are not negative, the signed and the unsigned reading of `%`
agree.) -/
def cliCheckTelemetry (X : Collab) (runMilis : Nat) (s : Cli) : Cli :=
  if s.env.cliTelemetry ≠ 0 then
    let s := { s with trace := s.trace ++ [Event.modulus s.env.cliTelemetry] }
    if Int.tmod (runMilis : Int) s.env.cliTelemetry = 0 then telemetryFrame X s else s
  else s

/-- The lookup and the handler call of the submission branch:
`cmd = cliCommandGet(cliBuf); if (cmd) cmd->cmdFunc(...); else serialPrint(...)`. -/
def cliDispatch (X : Collab) (s : Cli) : Cli :=
  let line := cstrAt s.cliBuf 0
  let s := { s with trace := s.trace ++ [Event.lookup line] }
  match cliCommandGet line with
  | some cmd =>
    let cmdLine := cstrAt s.cliBuf (strlen cmd.name)
    { s with env := cmdFunc X cmd cmdLine s.env,
             trace := s.trace ++ [Event.call cmd.cmdFunc cmdLine] }
  | none => { s with env := serialPrint (str "Command not found") s.env }

/-- The submission branch of `cliCheck` (`cliBufIndex > 1` at an end of
line).  The flag tells whether `cliCheck` returns. -/
def cliSubmit (X : Collab) (s : Cli) : Cli × Bool :=
  let s := { s with env := s.env |> serialPrint (str "\r\n") |> serialPrint cliClearEOS }
  let s := { s with cliBuf := bufStore s.cliBuf s.cliBufIndex 0,
                    trace := s.trace ++ [Event.store s.cliBufIndex] }
  let s := cliDispatch X s
  if s.env.esc.commandMode ≠ CLI_MODE then ({ s with cliBufIndex := 0 }, true)
  else (cliPrompt s, false)

/-- One turn of the `while` loop of `cliCheck` for the byte returned by
`serialRead()`.  The flag tells whether `cliCheck` returns. -/
def cliCheckByte (X : Collab) (byte : Nat) (s : Cli) : Cli × Bool :=
  let c := byte % 256
  let s := { s with cliBuf := bufStore s.cliBuf s.cliBufIndex c,
                    cliBufIndex := s.cliBufIndex + 1,
                    trace := s.trace ++ [Event.store s.cliBufIndex] }
  let full := decide (s.cliBufIndex = 32)
  let s := if full then { s with cliBufIndex := s.cliBufIndex - 1 } else s
  let c := if full then 10 else c
  if s.cliBufIndex ≠ 0 ∧ (c = 10 ∨ c = 13) then
    if s.cliBufIndex > 1 then cliSubmit X s
    else (cliPrompt s, false)
  else if c = CLI_INTR then (cliPrompt s, false)
  else if c = CLI_BS then
    if s.cliBufIndex > 1 then
      let s := { s with cliBuf := bufStore s.cliBuf (s.cliBufIndex - 2) 0,
                        trace := s.trace ++ [Event.store (s.cliBufIndex - 2)] }
      let s := { s with env := s.env
                  |> serialPrint (str "\r> ") |> serialPrint (cstrAt s.cliBuf 0)
                  |> serialWrite 32
                  |> serialPrint (str "\r> ") |> serialPrint (cstrAt s.cliBuf 0) }
      ({ s with cliBufIndex := s.cliBufIndex - 2 }, false)
    else ({ s with cliBufIndex := s.cliBufIndex - 1 }, false)
  else if c < 32 ∨ c > 126 then
    ({ s with env := serialWrite CLI_BELL s.env, cliBufIndex := s.cliBufIndex - 1 }, false)
  else ({ s with env := serialWrite c s.env }, false)

/-- The `while (serialAvailable())` loop of `cliCheck` over the bytes that the
serial driver holds; the second component is what is left unread when
`cliCheck` returns early. -/
def cliCheckLoop (X : Collab) : List Nat → Cli → Cli × List Nat
  | [], s => (s, [])
  | c :: rest, s =>
    let r := cliCheckByte X c s
    if r.2 then (r.1, rest) else cliCheckLoop X rest r.1

/-- The function `cliCheck`, called with the millisecond counter `runMilis`
and the bytes available on the serial line. -/
def cliCheck (X : Collab) (runMilis : Nat) (avail : List Nat) (s : Cli) : Cli × List Nat :=
  cliCheckLoop X avail (cliCheckTelemetry X runMilis s)

/-- The function `cliInit`. -/
def cliInit (X : Collab) (s : Cli) : Cli :=
  let e := s.env |> serialPrint cliHome |> serialPrint cliClear
  let e := { e with version := X.versionText }
  let e := e |> cliFuncVer |> serialPrint (str "\r\nCLI ready.\r\n")
  cliPrompt { s with env := e }

/-- The state at reset: the statics of `cli.c` are zero, nothing has been
printed; `esc` holds the collaborators' globals. -/
def boot (esc : Esc) : Cli :=
  { cliBuf := List.replicate 32 0, cliBufIndex := 0,
    env := { out := [], cliTelemetry := 0, version := [], esc := esc },
    trace := [] }

/-- One call of `cliCheck` from the main loop: what the collaborators did to
their globals since the previous call, the value of `runMilis`, and the bytes
that arrived on the serial line since the previous call. -/
structure Poll where
  collab : Esc → Esc
  runMilis : Nat
  arrived : List Nat

/-- A run of the main loop: successive calls of `cliCheck`; bytes left unread
by a call stay in the serial driver for the next one. -/
def cliRun (X : Collab) : List Poll → Cli × List Nat → Cli × List Nat
  | [], r => r
  | p :: ps, (s, pending) =>
    let s := { s with env := { s.env with esc := p.collab s.env.esc } }
    cliRun X ps (cliCheck X p.runMilis (pending ++ p.arrived) s)

/-- Feeding bytes one after the other to the loop body of `cliCheck`. -/
def feed (X : Collab) : List Nat → Cli → Cli
  | [], s => s
  | c :: rest, s => feed X rest (cliCheckByte X c s).1

/-- The lines handed to `cliCommandGet`, in order. -/
def lookups (trace : List Event) : List (List Nat) :=
  trace.filterMap (fun ev => match ev with
    | Event.lookup line => some line
    | _ => none)

/-- The handler calls, in order. -/
def calls (trace : List Event) : List (CmdFunc × List Nat) :=
  trace.filterMap (fun ev => match ev with
    | Event.call f cmdLine => some (f, cmdLine)
    | _ => none)

/-- A collaborator environment for concrete runs: `runDisarm` leaves the
globals alone, every `%hu` scan yields 100, the status report is one line and
the remaining handlers do nothing. -/
def demoCollab : Collab :=
  { runDisarm := fun esc => esc,
    sscanf_hu := fun _ => some 100,
    statusText := fun _ => str "status\r\n",
    versionText := str "1.0",
    other := fun _ _ esc => ([], esc) }

/-- Collaborator globals for concrete runs: disarmed, PWM input, CLI mode. -/
def demoEsc : Esc :=
  { state := ESC_STATE_DISARMED, inputMode := ESC_INPUT_PWM, runMode := 0,
    commandMode := CLI_MODE, aux := 0 }

/-- A printable byte: 0x20 to 0x7E. -/
def printable (c : Nat) : Prop := 32 ≤ c ∧ c ≤ 126

instance : DecidablePred printable := fun c => by unfold printable; infer_instance

/-- Invariant of the line editor between two bytes: 32 cells, the cursor
within 0 .. 31, and printable bytes below the cursor. -/
def EditorInv (s : Cli) : Prop :=
  s.cliBuf.length = 32 ∧ 0 ≤ s.cliBufIndex ∧ s.cliBufIndex ≤ 31 ∧
    ∀ i : Nat, (i : Int) < s.cliBufIndex → printable (s.cliBuf.getD i 0)

/-! ## The remaining handlers -/

/-- Modelled from the spec: the state after STOPPED in the order DISARMED <
STOPPED < PRE-START < STARTING < RUNNING; the source calls it
`ESC_STATE_NOCOMM`. -/
def ESC_STATE_NOCOMM : Nat := 2

/-- Modelled from the spec: the state STARTING, see `ESC_STATE_DISARMED`. -/
def ESC_STATE_STARTING : Nat := 3

/-- Modelled from the spec: the state RUNNING, see `ESC_STATE_DISARMED`. -/
def ESC_STATE_RUNNING : Nat := 4

/-- Modelled from the spec: RunMode is one of OPEN_LOOP, CLOSED_LOOP_RPM,
THRUST, SERVO (an enum of `run.h`); a mode is the index of its name in
`cliRunModes`. -/
def OPEN_LOOP : Nat := 0

/-- Modelled from the spec: the run mode named RPM, see `OPEN_LOOP`. -/
def CLOSED_LOOP_RPM : Nat := 1

/-- Modelled from the spec: the run mode THRUST, see `OPEN_LOOP`. -/
def CLOSED_LOOP_THRUST : Nat := 2

/-- Modelled from the spec: the run mode SERVO, see `OPEN_LOOP`. -/
def SERVO_MODE : Nat := 3

/-- The table `cliRunModes`. -/
def cliRunModes : List (List Nat) :=
  [str "OPEN_LOOP", str "RPM", str "THRUST", str "SERVO"]

/-- The message `runError`. -/
def runError : List Nat := str "ESC not running\r\n"

/-- Calls of functions of the other firmware modules made by the handlers. -/
inductive Call where
  | runArm
  | runDisarm
  | runStart
  | runStop
  | runDuty (duty : Rat)
  | runNewInput (pwm : Nat)
  | runRpmPIDReset
  | fetBeep (freq dur : Nat)
  | fetSetAngle (angle : Rat)
  | timerDelay (ticks : Nat)
  | rccReset
  | configLoadDefault
  | configReadFlash
  | configWriteFlash
  | configSetParamByID (i : Int) (value : Rat)
  deriving DecidableEq, Repr

/-- The state on which the handlers below act: the handler-visible part of
`cli.c`, the global `targetRpm` of the run module (a `float`, taken as an
exact number), and the record of the calls made into the other modules. -/
structure Fw where
  env : Env
  targetRpm : Rat
  calls : List Call

/-- What the handlers below need from the other firmware modules and from the
C library: the effect of each call on the collaborators' globals, the values
the calls return, the variables that are read, the results of the numeric
`sscanf` conversions and the texts of the numeric `sprintf` conversions. -/
structure Modules where
  /-- The effect of a call on the collaborators' globals. -/
  effect : Call → Esc → Esc
  /-- The value returned by `runDuty(duty)`. -/
  runDutyOk : Rat → Esc → Bool
  /-- The value returned by `configWriteFlash()`. -/
  configWriteFlashOk : Esc → Bool
  /-- The value returned by `configGetId(param)`: an index, or -1. -/
  configGetId : List Nat → Int
  /-- The constant `CONFIG_NUM_PARAMS`. -/
  CONFIG_NUM_PARAMS : Nat
  /-- The parameter `p[FF1TERM]`. -/
  p_FF1TERM : Esc → Rat
  /-- The variable `pwmLoValue`. -/
  pwmLoValue : Esc → Nat
  /-- The variable `pwmHiValue`. -/
  pwmHiValue : Esc → Nat
  /-- Result of `sscanf(s, "%f", &x)`: the value stored when the call returns
  1, nothing otherwise. -/
  sscanf_f : List Nat → Option Rat
  /-- Result of `sscanf(s, "%hu %hu", &freq, &dur)`: the two values stored when
  the call returns 2, nothing otherwise. -/
  sscanf_hu_hu : List Nat → Option (Nat × Nat)
  /-- The text `sprintf(tempBuf, format, configParameterStrings[i])` of
  `cliPrintParam`. -/
  paramNameText : Int → List Nat
  /-- The text `sprintf(tempBuf, configFormatStrings[i], p[i])` of
  `cliPrintParam`. -/
  paramValueText : Int → Esc → List Nat
  /-- The text of `sprintf` with a format holding one `float` conversion. -/
  fmtF : List Nat → Rat → List Nat
  /-- The duty cycle `(float)fetDutyCycle/fetPeriod*100.0f`. -/
  fetDutyPercent : Esc → Rat

/-- Printing from a handler: `serialPrint(s)`. -/
def fwPrint (s : List Nat) (fw : Fw) : Fw := { fw with env := serialPrint s fw.env }

/-- Writing one byte from a handler: `serialWrite(c)`. -/
def fwWrite (c : Nat) (fw : Fw) : Fw := { fw with env := serialWrite c fw.env }

/-- The call `cliUsage((cliCommand_t *)cmd)` from a handler. -/
def fwUsage (cmd : cliCommand_t) (fw : Fw) : Fw := { fw with env := cliUsage cmd fw.env }

/-- A call of a function of another module: its effect on the collaborators'
globals, and its entry in the record of calls. -/
def fwCall (K : Modules) (c : Call) (fw : Fw) : Fw :=
  { fw with env := { fw.env with esc := K.effect c fw.env.esc }, calls := fw.calls ++ [c] }

/-- The call `cliFuncChangeInput(input)` from a handler. -/
def fwChangeInput (input : Nat) (fw : Fw) : Fw :=
  { fw with env := cliFuncChangeInput input fw.env }

/-- The call `cliFuncDisarm(cmd, cmdLine)` from a handler. -/
def fwDisarm (X : Collab) (fw : Fw) : Fw :=
  { fw with env := cliFuncDisarm X fw.env, calls := fw.calls ++ [Call.runDisarm] }

/-- C library `strcasecmp(s1, s2)`: `strncasecmp` without a bound. -/
def strcasecmp (s1 s2 : List Nat) : Int :=
  strncasecmp s1 s2 (max s1.length s2.length + 1)

/-- The handler `cliFuncArm`. -/
def cliFuncArm (K : Modules) (fw : Fw) : Fw :=
  if fw.env.esc.state > ESC_STATE_DISARMED then fwPrint (str "ESC already armed\r\n") fw
  else
    let fw := if fw.env.esc.runMode ≠ SERVO_MODE then fwChangeInput ESC_INPUT_UART fw else fw
    fw |> fwCall K Call.runArm |> fwPrint (str "ESC armed\r\n")

/-- The handler `cliFuncBeep`; `scan` is the result of the `sscanf`. -/
def cliFuncBeep (K : Modules) (scan : Option (Nat × Nat)) (cmd : cliCommand_t) (fw : Fw) : Fw :=
  if fw.env.esc.state > ESC_STATE_STOPPED then fwPrint stopError fw
  else
    match scan with
    | none => fwUsage cmd fw
    | some (freq, dur) =>
      if freq < 10 ∨ freq > 5000 then
        fwPrint (str "frequency out of range: 10 => 5000\r\n") fw
      else if dur < 1 ∨ dur > 1000 then
        fwPrint (str "duration out of range: 1 => 1000\r\n") fw
      else fwCall K (Call.fetBeep freq dur) fw

/-- The handler `cliFuncBoot`. -/
def cliFuncBoot (K : Modules) (fw : Fw) : Fw :=
  if fw.env.esc.state ≠ ESC_STATE_DISARMED then fwPrint (str "ESC armed, disarm first\r\n") fw
  else
    fw |> fwPrint (str "Rebooting in boot loader mode...\r\n")
       |> fwCall K (Call.timerDelay 0xffff) |> fwCall K Call.rccReset

/-- The handler `cliFuncConfig`. -/
def cliFuncConfig (K : Modules) (cmd : cliCommand_t) (cmdLine : List Nat) (fw : Fw) : Fw :=
  if fw.env.esc.state > ESC_STATE_STOPPED then fwPrint stopError fw
  else
    match sscanf_s 8 cmdLine with
    | none => fwUsage cmd fw
    | some param =>
      if strcasecmp param (str "default") = 0 then
        fw |> fwCall K Call.configLoadDefault |> fwPrint (str "CONFIG: defaults loaded\r\n")
      else if strcasecmp param (str "read") = 0 then
        fw |> fwCall K Call.configReadFlash |> fwPrint (str "CONFIG: read flash\r\n")
      else if strcasecmp param (str "write") = 0 then
        if K.configWriteFlashOk fw.env.esc then
          fw |> fwCall K Call.configWriteFlash |> fwPrint (str "CONFIG: wrote flash\r\n")
        else
          fw |> fwCall K Call.configWriteFlash |> fwPrint (str "CONFIG: write flash failed!\r\n")
      else fwUsage cmd fw

/-- The handler `cliFuncDuty`; `scan` is the result of the `sscanf`. -/
def cliFuncDuty (K : Modules) (scan : Option Rat) (cmd : cliCommand_t) (fw : Fw) : Fw :=
  if fw.env.esc.state < ESC_STATE_RUNNING then fwPrint runError fw
  else
    match scan with
    | none => fwUsage cmd fw
    | some duty =>
      if ¬ K.runDutyOk duty fw.env.esc = true then
        fw |> fwCall K (Call.runDuty duty) |> fwPrint (str "duty out of range: 0 => 100\r\n")
      else
        let fw := fwCall K (Call.runDuty duty) fw
        fwPrint (K.fmtF (str "Fet duty set to %.2f%%\r\n") (K.fetDutyPercent fw.env.esc)) fw

/-- The handler `cliFuncHelp`. -/
def cliFuncHelp (fw : Fw) : Fw :=
  cliCommandTable.foldl
    (fun fw row =>
      fw |> fwPrint row.name |> fwWrite 32 |> fwPrint row.params |> fwPrint (str "\r\n"))
    (fwPrint (str "Available commands:\r\n\n") fw)

/-- The handler `cliFuncMode`.  The loop stops at the first row of
`cliRunModes` that the scanned word starts with; `i` is that index, or 4. -/
def cliFuncMode (X : Collab) (cmd : cliCommand_t) (cmdLine : List Nat) (fw : Fw) : Fw :=
  match sscanf_s 10 cmdLine with
  | none => fwUsage cmd fw
  | some mode =>
    let i := cliRunModes.findIdx (fun m => decide (strncasecmp m mode (strlen m) = 0))
    if i < cliRunModes.length then
      let fw := fwDisarm X fw
      let fw := { fw with env := { fw.env with esc := { fw.env.esc with runMode := i } } }
      fwPrint (str "Run mode set to " ++ cliRunModes.getD i [] ++ str "\r\n") fw
    else fwUsage cmd fw

/-- The handler `cliFuncPos`; `scan` is the result of the `sscanf`. -/
def cliFuncPos (K : Modules) (scan : Option Rat) (cmd : cliCommand_t) (fw : Fw) : Fw :=
  if fw.env.esc.state < ESC_STATE_RUNNING then fwPrint runError fw
  else if fw.env.esc.runMode ≠ SERVO_MODE then
    fwPrint (str "Command only valid in servo mode\r\n") fw
  else
    match scan with
    | none => fwUsage cmd fw
    | some angle =>
      fw |> fwCall K (Call.fetSetAngle angle)
         |> fwPrint (K.fmtF (str "Position set to %.1f\r\n") angle)

/-- The handler `cliFuncPwm`; `scan` is the result of the `sscanf`. -/
def cliFuncPwm (K : Modules) (scan : Option Nat) (cmd : cliCommand_t) (fw : Fw) : Fw :=
  if fw.env.esc.state < ESC_STATE_RUNNING then fwPrint runError fw
  else
    match scan with
    | none => fwUsage cmd fw
    | some pwm =>
      if pwm < K.pwmLoValue fw.env.esc ∨ pwm > K.pwmHiValue fw.env.esc then
        fwPrint (str "PWM out of range: " ++ fmtD (K.pwmLoValue fw.env.esc) ++ str " => "
          ++ fmtD (K.pwmHiValue fw.env.esc) ++ str "\r\n") fw
      else
        let fw :=
          if fw.env.esc.runMode ≠ SERVO_MODE then
            { fw with env := { fw.env with esc := { fw.env.esc with runMode := OPEN_LOOP } } }
          else fw
        fw |> fwCall K (Call.runNewInput pwm)
           |> fwPrint (str "PWM set to " ++ fmtD pwm ++ str "\r\n")

/-- The handler `cliFuncRpm`; `scan` is the result of the `sscanf`. -/
def cliFuncRpm (K : Modules) (scan : Option Rat) (cmd : cliCommand_t) (fw : Fw) : Fw :=
  if fw.env.esc.state < ESC_STATE_RUNNING then fwPrint runError fw
  else
    match scan with
    | none => fwUsage cmd fw
    | some target =>
      if K.p_FF1TERM fw.env.esc = 0 then
        fwPrint (str "Calibration parameters required\r\n") fw
      else if target < 100 ∨ target > 10000 then
        fwPrint (str "RPM out of range: 100 => 10000\r\n") fw
      else
        let fw :=
          if fw.env.esc.runMode ≠ CLOSED_LOOP_RPM then
            let fw := fwCall K Call.runRpmPIDReset fw
            { fw with env := { fw.env with esc := { fw.env.esc with runMode := CLOSED_LOOP_RPM } } }
          else fw
        let fw := { fw with targetRpm := target }
        fwPrint (K.fmtF (str "RPM set to %6.0f\r\n") target) fw

/-- The function `cliPrintParam(i)`. -/
def cliPrintParam (K : Modules) (i : Int) (fw : Fw) : Fw :=
  fw |> fwPrint (K.paramNameText i) |> fwPrint (K.paramValueText i fw.env.esc)
     |> fwPrint (str "\r\n")

/-- The text at `cmdLine + strlen(param)+1`, from which `cliFuncSet` scans the
value. -/
def setValueText (cmdLine param : List Nat) : List Nat := cmdLine.drop (strlen param + 1)

/-- The handler `cliFuncSet`. -/
def cliFuncSet (K : Modules) (cmd : cliCommand_t) (cmdLine : List Nat) (fw : Fw) : Fw :=
  match sscanf_s 32 cmdLine with
  | none => fwUsage cmd fw
  | some param =>
    if strcasecmp param (str "list") = 0 then
      (List.range' 1 (K.CONFIG_NUM_PARAMS - 1)).foldl
        (fun fw (i : Nat) => cliPrintParam K (i : Int) fw) fw
    else
      let i := K.configGetId param
      if i < 0 then
        fwPrint (str "SET: no such parameter '" ++ param ++ str "'\r\n") fw
      else
        match K.sscanf_f (setValueText cmdLine param) with
        | some value =>
          if fw.env.esc.state > ESC_STATE_STOPPED then fwPrint stopError fw
          else fw |> fwCall K (Call.configSetParamByID i value) |> cliPrintParam K i
        | none => cliPrintParam K i fw

/-- The handler `cliFuncStart`. -/
def cliFuncStart (K : Modules) (fw : Fw) : Fw :=
  if fw.env.esc.state = ESC_STATE_DISARMED then fwPrint (str "ESC disarmed, arm first\r\n") fw
  else if fw.env.esc.state > ESC_STATE_STOPPED then fwPrint (str "ESC already running\r\n") fw
  else fw |> fwCall K Call.runStart |> fwPrint (str "ESC started\r\n")

/-- The handler `cliFuncStop`. -/
def cliFuncStop (K : Modules) (fw : Fw) : Fw :=
  if fw.env.esc.state < ESC_STATE_NOCOMM then fwPrint runError fw
  else
    fw |> fwCall K Call.runStop |> fwChangeInput ESC_INPUT_UART
       |> fwPrint (str "ESC stopping\r\n")

/-- The handler `cliFuncInput` in the state of the handlers written out here:
its effect on the handler-visible part, and the entry of the `runDisarm` call
that its `cliFuncDisarm` makes when the scanned word names a row of
`cliInputModes`. -/
def fwInput (X : Collab) (cmd : cliCommand_t) (cmdLine : List Nat) (fw : Fw) : Fw :=
  { fw with
    env := cliFuncInput X cmd cmdLine fw.env,
    calls := fw.calls ++
      match sscanf_s 7 cmdLine with
      | none => []
      | some mode =>
        if cliInputModes.findIdx (fun m => decide (strncasecmp m mode 3 = 0))
            < cliInputModes.length then [Call.runDisarm] else [] }

/-- The call `cmd->cmdFunc(cmd, cmdLine)` with every handler of the table
written out. -/
def cmdFuncAll (X : Collab) (K : Modules) (cmd : cliCommand_t) (cmdLine : List Nat)
    (fw : Fw) : Fw :=
  match cmd.cmdFunc with
  | .cliFuncArm => cliFuncArm K fw
  | .cliFuncBeep => cliFuncBeep K (K.sscanf_hu_hu cmdLine) cmd fw
  | .cliFuncBinary => { fw with env := cliFuncBinary fw.env }
  | .cliFuncBoot => cliFuncBoot K fw
  | .cliFuncConfig => cliFuncConfig K cmd cmdLine fw
  | .cliFuncDisarm => fwDisarm X fw
  | .cliFuncDuty => cliFuncDuty K (K.sscanf_f cmdLine) cmd fw
  | .cliFuncHelp => cliFuncHelp fw
  | .cliFuncInput => fwInput X cmd cmdLine fw
  | .cliFuncMode => cliFuncMode X cmd cmdLine fw
  | .cliFuncPos => cliFuncPos K (K.sscanf_f cmdLine) cmd fw
  | .cliFuncPwm => cliFuncPwm K (X.sscanf_hu cmdLine) cmd fw
  | .cliFuncRpm => cliFuncRpm K (K.sscanf_f cmdLine) cmd fw
  | .cliFuncSet => cliFuncSet K cmd cmdLine fw
  | .cliFuncStart => cliFuncStart K fw
  | .cliFuncStatus => { fw with env := cliFuncStatus X fw.env }
  | .cliFuncStop => cliFuncStop K fw
  | .cliFuncTelemetry => { fw with env := cliFuncTelemetry (X.sscanf_hu cmdLine) cmd fw.env }
  | .cliFuncVer => { fw with env := cliFuncVer fw.env }


/-- C library `isdigit`. -/
def isdigit (c : Nat) : Bool := decide (48 ≤ c ∧ c ≤ 57)

/-- The number written by a run of decimal digits. -/
def digitsValue (ds : List Nat) : Nat := ds.foldl (fun a d => 10 * a + (d - 48)) 0

/-- A reading of `sscanf(s, "%f", &x)` for concrete runs, for unsigned
decimals only: white space is skipped, then digits, optionally a point and
more digits, are converted; nothing is stored when no digit is found there. -/
def demoScanF (s : List Nat) : Option Rat :=
  let t := s.dropWhile isspace
  let ip := t.takeWhile isdigit
  let fp := match t.drop ip.length with
    | 46 :: r => r.takeWhile isdigit
    | _ => []
  if ip = [] ∧ fp = [] then none
  else some (mkRat ((digitsValue ip * 10 ^ fp.length + digitsValue fp : Nat) : Int)
    (10 ^ fp.length))

/-- Collaborators for concrete runs of the handlers: calls leave the globals
alone and succeed, the parameters are `FF1TERM` (index 5, value 1) and `FOO`
(index 1), and the numeric texts are empty. -/
def demoModules : Modules :=
  { effect := fun _ esc => esc,
    runDutyOk := fun _ _ => true,
    configWriteFlashOk := fun _ => true,
    configGetId := fun param =>
      if strcasecmp param (str "FF1TERM") = 0 then 5
      else if strcasecmp param (str "FOO") = 0 then 1 else -1,
    CONFIG_NUM_PARAMS := 6,
    p_FF1TERM := fun _ => 1,
    pwmLoValue := fun _ => 1000,
    pwmHiValue := fun _ => 2000,
    sscanf_f := demoScanF,
    sscanf_hu_hu := fun _ => none,
    paramNameText := fun _ => [],
    paramValueText := fun _ _ => [],
    fmtF := fun _ _ => [],
    fetDutyPercent := fun _ => 0 }

/-- A handler state for concrete runs: the state at reset, `targetRpm` 0, no
call made. -/
def demoFw : Fw := { env := (boot demoEsc).env, targetRpm := 0, calls := [] }

/-! ## Definitions used in the statements and proofs -/

/-- Strict order between two row names that is decided at a byte where they
differ (so neither is a prefix of the other). -/
def nameLt : List Nat → List Nat → Bool
  | x :: xs, y :: ys => decide (x < y) || (decide (x = y) && nameLt xs ys)
  | _, _ => false

/-- A row name as stored in the table: lower case already, and free of NUL. -/
def nameOk (name : List Nat) : Bool := name.all (fun c => decide (tolower c = c ∧ c ≠ 0))

/-- The events of storing at `n` successive indices from `k` on. -/
def storesFrom (k n : Nat) : List Event :=
  (List.range n).map (fun i => Event.store ((k + i : Nat) : Int))

/-- The events of a dispatch of `line`: the lookup, and the handler call when a
row is found, with the rest of the line after the row name as argument. -/
def dispatchEvents (line : List Nat) : List Event :=
  Event.lookup line ::
    match cliCommandGet line with
    | some cmd => [Event.call cmd.cmdFunc (line.drop (strlen cmd.name))]
    | none => []

/-- The handler call of a dispatch of `line`. -/
def dispatchCalls (line : List Nat) : List (CmdFunc × List Nat) :=
  match cliCommandGet line with
  | some cmd => [(cmd.cmdFunc, line.drop (strlen cmd.name))]
  | none => []

/-- A stored row name consists of lower-case letters. -/
def nameLetters (name : List Nat) : Bool := name.all (fun c => decide (97 ≤ c ∧ c ≤ 122))

/-- The values that the telemetry period takes: 0 (off) or 10 .. 1000 ms. -/
def TelOk (t : Int) : Prop := t = 0 ∨ (10 ≤ t ∧ t ≤ 1000)

/-- Invariant of `cliTelemetry` and of the recorded `%` evaluations. -/
def TelInv (s : Cli) : Prop := TelOk s.env.cliTelemetry ∧ Event.modulus 0 ∉ s.trace

/-- The bytes printed by one telemetry frame: cursor home, the header with the
frequency, the status report, the prompt, the C string held in `cliBuf`, and
clear-to-end-of-line. -/
def frameText (X : Collab) (s : Cli) : List Nat :=
  cliHome ++ (str "Telemetry @ " ++ fmtD (Int.tdiv 1000 s.env.cliTelemetry) ++ str " Hz\r\n\n")
    ++ X.statusText s.env.esc ++ str "\n> " ++ cstrAt s.cliBuf 0 ++ cliClearEOL

/-- Safety invariant of the line buffer between two bytes: the editor
invariant, a NUL in the last cell, and every recorded assignment to `cliBuf`
at an index within 0 .. 31. -/
def SafeInv (s : Cli) : Prop :=
  EditorInv s ∧ s.cliBuf.getD 31 0 = 0 ∧
    ∀ i : Int, Event.store i ∈ s.trace → 0 ≤ i ∧ i ≤ 31

/-! ## Binary search agrees with the linear scan -/

/-- The first element satisfying `p` is the one at index `k` when no earlier
index satisfies `p`. -/
theorem find?_eq_of_first {α : Type} (p : α → Bool) :
    ∀ (l : List α) (k : Nat) (a : α), l[k]? = some a → p a = true →
      (∀ (i : Nat) (b : α), i < k → l[i]? = some b → p b = false) → l.find? p = some a
  | [], k, a, h, _, _ => by simp at h
  | x :: xs, 0, a, h, hp, _ => by
    simp at h
    subst h
    simp [List.find?, hp]
  | x :: xs, k + 1, a, h, hp, hlt => by
    have hx : p x = false := hlt 0 x (Nat.succ_pos k) (by simp)
    have hrec : xs.find? p = some a :=
      find?_eq_of_first p xs k a (by simpa using h) hp
        (fun i b hi hb => hlt (i + 1) b (Nat.succ_lt_succ hi) (by simpa using hb))
    simp [List.find?, hx, hrec]

/-- A linear scan does not change when the predicate is replaced by one that
agrees with it on the elements of the list. -/
theorem find?_congr_mem {α : Type} (p q : α → Bool) :
    ∀ l : List α, (∀ a ∈ l, p a = q a) → l.find? p = l.find? q
  | [], _ => rfl
  | x :: xs, h => by
    have hx : p x = q x := h x (by simp)
    have hrec := find?_congr_mem p q xs (fun a ha => h a (by simp [ha]))
    simp only [List.find?, hx, hrec]

/-- On a table on which the comparator is monotone (once the key is not above
a row, it is below every later row), the halving loop returns what a linear
scan for a row comparing equal returns. -/
theorem bsearchLoop_eq_find {α : Type} (compar : α → Int) (base : List α)
    (hmono : ∀ (i j : Nat) (a b : α), i < j → base[i]? = some a → base[j]? = some b →
      compar a ≤ 0 → compar b < 0) :
    ∀ fuel lo hi, hi ≤ base.length → hi - lo ≤ fuel →
      (∀ (i : Nat) (a : α), i < lo → base[i]? = some a → 0 < compar a) →
      (∀ (i : Nat) (a : α), hi ≤ i → base[i]? = some a → compar a < 0) →
      bsearchLoop compar base fuel lo hi = base.find? (fun a => decide (compar a = 0)) := by
  have hempty : ∀ lo hi, hi ≤ lo →
      (∀ (i : Nat) (a : α), i < lo → base[i]? = some a → 0 < compar a) →
      (∀ (i : Nat) (a : α), hi ≤ i → base[i]? = some a → compar a < 0) →
      base.find? (fun a => decide (compar a = 0)) = none := by
    intro lo hi hle hlo hhi
    rw [List.find?_eq_none]
    intro x hx
    obtain ⟨n, hn⟩ := List.mem_iff_getElem?.1 hx
    rcases Nat.lt_or_ge n lo with h | h
    · have := hlo n x h hn
      simp; omega
    · have := hhi n x (Nat.le_trans hle h) hn
      simp; omega
  intro fuel
  induction fuel with
  | zero =>
    intro lo hi _ hfuel hlo hhi
    simp only [bsearchLoop]
    exact (hempty lo hi (by omega) hlo hhi).symm
  | succ fuel ih =>
    intro lo hi hlen hfuel hlo hhi
    simp only [bsearchLoop]
    by_cases hlt : lo < hi
    · simp only [hlt, if_true]
      have hmid1 : lo ≤ (lo + hi) / 2 := by omega
      have hmid2 : (lo + hi) / 2 < hi := by omega
      have hmid3 : (lo + hi) / 2 < base.length := by omega
      have hget : base[(lo + hi) / 2]? = some base[(lo + hi) / 2] :=
        List.getElem?_eq_getElem hmid3
      rw [hget]
      simp only []
      have hbelow : ∀ (i : Nat) (a : α), i < (lo + hi) / 2 → base[i]? = some a →
          0 ≤ compar base[(lo + hi) / 2] → 0 < compar a := by
        intro i a hi1 ha hc
        by_contra hneg
        have := hmono i _ a _ hi1 ha hget (by omega)
        omega
      by_cases hc1 : compar base[(lo + hi) / 2] < 0
      · simp only [hc1, if_true]
        apply ih lo _ (by omega) (by omega) hlo
        intro i a hi1 ha
        rcases Nat.eq_or_lt_of_le hi1 with h | h
        · subst h
          rw [hget] at ha
          cases ha
          exact hc1
        · exact hmono _ i _ a h hget ha (by omega)
      · by_cases hc2 : compar base[(lo + hi) / 2] > 0
        · simp only [hc1, hc2, if_true, if_false]
          apply ih _ hi hlen (by omega) _ hhi
          intro i a hi1 ha
          rcases Nat.eq_or_lt_of_le (Nat.le_of_lt_succ hi1) with h | h
          · subst h
            rw [hget] at ha
            cases ha
            exact hc2
          · exact hbelow i a h ha (by omega)
        · simp only [hc1, hc2, if_false]
          symm
          apply find?_eq_of_first _ base _ _ hget
          · simp; omega
          · intro i b hi1 hb
            have := hbelow i b hi1 hb (by omega)
            simp; omega
    · simp only [hlt, if_false]
      exact (hempty lo hi (by omega) hlo hhi).symm

theorem tolower_ne_zero {c : Nat} (h : c ≠ 0) : tolower c ≠ 0 := by
  unfold tolower
  split <;> omega

/-- The comparator is zero exactly when the row name, case folded, is a prefix
of the case-folded needle. -/
theorem cliCommandComp_eq_zero (name : List Nat) (hname : ∀ c ∈ name, c ≠ 0) :
    ∀ needle : List Nat, decide (cliCommandComp needle name = 0) =
      (name.map tolower).isPrefixOf (needle.map tolower) := by
  induction name with
  | nil => intro needle; simp [cliCommandComp, strlen, strncasecmp]
  | cons x xs ih =>
    intro needle
    have hx : tolower x ≠ 0 := tolower_ne_zero (hname x (by simp))
    have ih2 := ih (fun c hc => hname c (by simp [hc]))
    cases needle with
    | nil =>
      have h0 : tolower 0 = 0 := by simp [tolower]
      simp [cliCommandComp, strlen, strncasecmp, h0, List.isPrefixOf]
      omega
    | cons c cs =>
      by_cases hc : tolower c = tolower x
      · have hcx : tolower c ≠ 0 := by rw [hc]; exact hx
        have := ih2 cs
        simp only [cliCommandComp, strlen] at this
        simp [cliCommandComp, strlen, strncasecmp, hc, hx, List.isPrefixOf, this]
      · have hne : ((tolower c : Nat) : Int) - (tolower x : Int) ≠ 0 := by omega
        have hne2 : ¬ tolower x = tolower c := fun h => hc h.symm
        simp [cliCommandComp, strlen, strncasecmp, hc, hne, hne2, List.isPrefixOf]

/-- Monotonicity of the comparator along two names ordered by `nameLt`: a
needle that is not above the first name is below the second. -/
theorem cliCommandComp_mono :
    ∀ (a b : List Nat), nameLt a b = true → nameOk a = true → nameOk b = true →
      ∀ needle : List Nat, cliCommandComp needle a ≤ 0 → cliCommandComp needle b < 0
  | [], _, h, _, _ => by simp [nameLt] at h
  | _ :: _, [], h, _, _ => by simp [nameLt] at h
  | x :: xs, y :: ys, h, ha, hb => by
    intro needle hle
    simp only [nameLt, Bool.or_eq_true, Bool.and_eq_true, decide_eq_true_eq] at h
    simp only [nameOk, List.all_cons, Bool.and_eq_true, decide_eq_true_eq] at ha hb
    obtain ⟨⟨hxl, hx0⟩, ha2⟩ := ha
    obtain ⟨⟨hyl, hy0⟩, hb2⟩ := hb
    simp only [cliCommandComp, strlen, List.length_cons, strncasecmp, List.headD_cons,
      List.tail_cons, hxl, hyl] at hle ⊢
    by_cases hc : tolower (needle.headD 0) = x
    · simp only [hc, ne_eq, not_true_eq_false, if_false, hx0] at hle
      rcases h with h | ⟨h1, h2⟩
      · have : ¬ x = y := by omega
        simp only [hc, ne_eq, this, not_false_eq_true, if_true]
        omega
      · subst h1
        simp only [hc, ne_eq, not_true_eq_false, if_false, hx0]
        exact cliCommandComp_mono xs ys h2 (by simpa [nameOk] using ha2)
          (by simpa [nameOk] using hb2) needle.tail hle
    · simp only [ne_eq, hc, not_false_eq_true, if_true] at hle
      have hcy : ¬ tolower (needle.headD 0) = y := by
        rcases h with h | ⟨h1, _⟩ <;> omega
      simp only [ne_eq, hcy, not_false_eq_true, if_true]
      rcases h with h | ⟨h1, _⟩ <;> omega

theorem cliCommandTable_sorted :
    cliCommandTable.Pairwise (fun a b => nameLt a.name b.name = true) := by
  decide

theorem cliCommandTable_names_ok : ∀ row ∈ cliCommandTable, nameOk row.name = true := by
  decide

theorem nameOk_ne_zero {name : List Nat} (h : nameOk name = true) : ∀ c ∈ name, c ≠ 0 := by
  intro c hc
  simp only [nameOk, List.all_eq_true, decide_eq_true_eq] at h
  exact (h c hc).2

theorem nameOk_map_tolower {name : List Nat} (h : nameOk name = true) :
    name.map tolower = name := by
  simp only [nameOk, List.all_eq_true, decide_eq_true_eq] at h
  conv_rhs => rw [← List.map_id name]
  exact List.map_congr_left (fun c hc => (h c hc).1)

/-- Index form of the monotonicity of `cliCommandComp` along the table. -/
theorem cliCommandTable_mono (needle : List Nat) :
    ∀ (i j : Nat) (a b : cliCommand_t), i < j → cliCommandTable[i]? = some a →
      cliCommandTable[j]? = some b →
      cliCommandComp needle a.name ≤ 0 → cliCommandComp needle b.name < 0 := by
  intro i j a b hij ha hb hle
  obtain ⟨hi, rfl⟩ := List.getElem?_eq_some.1 ha
  obtain ⟨hj, rfl⟩ := List.getElem?_eq_some.1 hb
  have hlt := List.pairwise_iff_getElem.1 cliCommandTable_sorted i j hi hj hij
  exact cliCommandComp_mono _ _ hlt
    (cliCommandTable_names_ok _ (List.getElem_mem _))
    (cliCommandTable_names_ok _ (List.getElem_mem _)) needle hle

/-- The binary search returns the first row on which the comparator is 0. -/
theorem cliCommandGet_eq_find (needle : List Nat) :
    cliCommandGet needle =
      cliCommandTable.find? (fun row => decide (cliCommandComp needle row.name = 0)) := by
  unfold cliCommandGet bsearch
  exact bsearchLoop_eq_find (fun row => cliCommandComp needle row.name) cliCommandTable
    (cliCommandTable_mono needle) CLI_N_CMDS 0 CLI_N_CMDS (Nat.le_refl _) (by omega)
    (fun i a h _ => absurd h (Nat.not_lt_zero i))
    (fun i a h hget => by
      have := (List.getElem?_eq_some.1 hget).1
      simp only [CLI_N_CMDS] at h
      omega)

/-- The binary search and the linear scan of the specification coincide. -/
theorem cliCommandGet_eq_specLinearScan (needle : List Nat) :
    cliCommandGet needle = specLinearScan needle := by
  rw [cliCommandGet_eq_find, specLinearScan]
  apply find?_congr_mem
  intro row hrow
  exact cliCommandComp_eq_zero row.name (nameOk_ne_zero (cliCommandTable_names_ok row hrow)) needle

/-- A row whose name is a case-insensitive prefix of the needle is the row the
lookup returns. -/
theorem cliCommandGet_of_prefix (needle : List Nat) (row : cliCommand_t)
    (hrow : row ∈ cliCommandTable)
    (hpre : (row.name.map tolower).isPrefixOf (needle.map tolower) = true) :
    cliCommandGet needle = some row := by
  rw [cliCommandGet_eq_find]
  obtain ⟨j, hj⟩ := List.mem_iff_getElem?.1 hrow
  have hz : cliCommandComp needle row.name = 0 := by
    have := cliCommandComp_eq_zero row.name
      (nameOk_ne_zero (cliCommandTable_names_ok row hrow)) needle
    rw [hpre] at this
    simpa using this
  apply find?_eq_of_first _ cliCommandTable j row hj
  · simpa using hz
  · intro i b hi hb
    have := cliCommandTable_mono needle i j b row hi hb hj
    simp only [decide_eq_false_iff_not]
    intro h0
    have := this (by omega)
    omega

/-- What a successful lookup returns is a row of the table whose name is a
case-insensitive prefix of the needle. -/
theorem cliCommandGet_some (needle : List Nat) (row : cliCommand_t)
    (h : cliCommandGet needle = some row) :
    row ∈ cliCommandTable ∧ (row.name.map tolower).isPrefixOf (needle.map tolower) = true := by
  rw [cliCommandGet_eq_specLinearScan, specLinearScan] at h
  exact ⟨List.mem_of_find?_eq_some h,
    List.find?_some (p := fun r : cliCommand_t =>
      (r.name.map tolower).isPrefixOf (needle.map tolower)) h⟩

/-- C1: for every needle the binary search `cliCommandGet` agrees with the
linear scan of the specification; it returns the row whose name is a
case-insensitive prefix of the needle when there is one, and it returns no row
exactly when no row name is a case-insensitive prefix of the needle. -/
theorem C1_cliCommandGet_agrees_with_linear_scan (needle : List Nat) :
    cliCommandGet needle = specLinearScan needle ∧
    (∀ row ∈ cliCommandTable,
      (row.name.map tolower).isPrefixOf (needle.map tolower) = true →
        cliCommandGet needle = some row) ∧
    (∀ row, cliCommandGet needle = some row →
      row ∈ cliCommandTable ∧
        (row.name.map tolower).isPrefixOf (needle.map tolower) = true) ∧
    (cliCommandGet needle = none ↔
      ∀ row ∈ cliCommandTable,
        (row.name.map tolower).isPrefixOf (needle.map tolower) = false) := by
  refine ⟨cliCommandGet_eq_specLinearScan needle,
    fun row hrow hpre => cliCommandGet_of_prefix needle row hrow hpre,
    fun row h => cliCommandGet_some needle row h, ?_⟩
  rw [cliCommandGet_eq_specLinearScan, specLinearScan, List.find?_eq_none]
  simp only [Bool.not_eq_true]


/-! ## The line-editor invariant -/

theorem bufStore_length (buf : List Nat) (i : Int) (v : Nat) :
    (bufStore buf i v).length = buf.length := by
  unfold bufStore
  split <;> simp

theorem bufStore_getD_ne (buf : List Nat) (i : Int) (v : Nat) (j : Nat) (h : (j : Int) ≠ i) :
    (bufStore buf i v).getD j 0 = buf.getD j 0 := by
  unfold bufStore
  split
  · have hne : i.toNat ≠ j := by omega
    simp [List.getD_eq_getElem?_getD, List.getElem?_set, hne]
  · rfl

theorem bufStore_getD_eq (buf : List Nat) (k : Nat) (v : Nat) (h : k < buf.length) :
    (bufStore buf (k : Int) v).getD k 0 = v := by
  simp [bufStore, List.getD_eq_getElem?_getD, List.getElem?_set, h]

theorem cliDispatch_cliBuf (X : Collab) (s : Cli) : (cliDispatch X s).cliBuf = s.cliBuf := by
  unfold cliDispatch
  simp only []
  split <;> rfl

theorem cliDispatch_cliBufIndex (X : Collab) (s : Cli) :
    (cliDispatch X s).cliBufIndex = s.cliBufIndex := by
  unfold cliDispatch
  simp only []
  split <;> rfl

theorem cliPrompt_inv (s : Cli) : EditorInv (cliPrompt s) := by
  refine ⟨by simp [cliPrompt], by simp [cliPrompt], by simp [cliPrompt], ?_⟩
  intro i hi
  simp [cliPrompt] at hi
  omega

theorem cliSubmit_inv (X : Collab) (s : Cli) (h : s.cliBuf.length = 32) :
    EditorInv (cliSubmit X s).1 := by
  unfold cliSubmit
  simp only []
  split
  · refine ⟨by simp [cliDispatch_cliBuf, bufStore_length, h], by simp, by simp, ?_⟩
    intro i hi
    simp at hi
    omega
  · exact cliPrompt_inv _

theorem cliCheckByte_inv (X : Collab) (c : Nat) (s : Cli) (h : EditorInv s) :
    EditorInv (cliCheckByte X c s).1 := by
  obtain ⟨hlen, h0, h31, hpr⟩ := h
  by_cases hfull : s.cliBufIndex + 1 = 32
  · have h1 : (1 : Int) < 32 - 1 := by decide
    have h2 : ¬ ((32 : Int) - 1 = 0) := by decide
    simp only [cliCheckByte, hfull, decide_True, if_true, ne_eq, h2, not_false_eq_true, true_or,
      and_self, gt_iff_lt, h1]
    exact cliSubmit_inv X _ (by simp [bufStore_length, hlen])
  · simp only [cliCheckByte, hfull, decide_False, Bool.false_eq_true, if_false]
    split
    · split
      · exact cliSubmit_inv X _ (by simp [bufStore_length, hlen])
      · exact cliPrompt_inv _
    · split
      · exact cliPrompt_inv _
      · split
        · split
          · rename_i hgt
            refine ⟨by simp [bufStore_length, hlen], by simp; omega, by simp; omega, ?_⟩
            intro i hi
            simp only at hi ⊢
            rw [bufStore_getD_ne _ _ _ _ (by omega), bufStore_getD_ne _ _ _ _ (by omega)]
            exact hpr i (by omega)
          · rename_i hgt
            refine ⟨by simp [bufStore_length, hlen], by simp; omega, by simp; omega, ?_⟩
            intro i hi
            simp only at hi hgt
            omega
        · split
          · refine ⟨by simp [bufStore_length, hlen], by simp; omega, by simp; omega, ?_⟩
            intro i hi
            simp only at hi ⊢
            rw [bufStore_getD_ne _ _ _ _ (by omega)]
            exact hpr i (by omega)
          · rename_i hnr
            refine ⟨by simp [bufStore_length, hlen], by simp; omega, by simp; omega, ?_⟩
            intro i hi
            simp only at hi ⊢
            by_cases hik : (i : Int) = s.cliBufIndex
            · obtain ⟨k, hk⟩ := Int.eq_ofNat_of_zero_le h0
              have hki : i = k := by omega
              subst hki
              rw [hk, bufStore_getD_eq _ _ _ (by omega)]
              unfold printable
              omega
            · rw [bufStore_getD_ne _ _ _ _ hik]
              exact hpr i (by omega)

/-- A property kept by every turn of the loop holds after the loop. -/
theorem cliCheckLoop_induction (X : Collab) (P : Cli → Prop)
    (hbyte : ∀ c s, P s → P (cliCheckByte X c s).1) :
    ∀ (avail : List Nat) (s : Cli), P s → P (cliCheckLoop X avail s).1
  | [], s, h => h
  | c :: rest, s, h => by
    simp only [cliCheckLoop]
    split
    · exact hbyte c s h
    · exact cliCheckLoop_induction X P hbyte rest _ (hbyte c s h)

/-- A property kept by the collaborators, by the telemetry part and by every
turn of the loop holds along every run of the main loop. -/
theorem cliRun_induction (X : Collab) (P : Cli → Prop)
    (hcollab : ∀ (f : Esc → Esc) s, P s → P { s with env := { s.env with esc := f s.env.esc } })
    (htel : ∀ rm s, P s → P (cliCheckTelemetry X rm s))
    (hbyte : ∀ c s, P s → P (cliCheckByte X c s).1) :
    ∀ (polls : List Poll) (r : Cli × List Nat), P r.1 → P (cliRun X polls r).1
  | [], r, h => h
  | p :: ps, (s, pending), h => by
    simp only [cliRun]
    apply cliRun_induction X P hcollab htel hbyte ps
    simp only [cliCheck]
    exact cliCheckLoop_induction X P hbyte _ _ (htel _ _ (hcollab p.collab s h))

theorem cliCheckTelemetry_cliBuf (X : Collab) (rm : Nat) (s : Cli) :
    (cliCheckTelemetry X rm s).cliBuf = s.cliBuf ∧
      (cliCheckTelemetry X rm s).cliBufIndex = s.cliBufIndex := by
  unfold cliCheckTelemetry telemetryFrame
  split
  · simp only []
    split <;> exact ⟨rfl, rfl⟩
  · exact ⟨rfl, rfl⟩

theorem cliCheckTelemetry_inv (X : Collab) (rm : Nat) (s : Cli) (h : EditorInv s) :
    EditorInv (cliCheckTelemetry X rm s) := by
  unfold EditorInv
  rw [(cliCheckTelemetry_cliBuf X rm s).1, (cliCheckTelemetry_cliBuf X rm s).2]
  exact h

/-- C2: line-editor invariant.  Along every run of the main loop that starts
in the state left by `cliInit`, whatever the collaborators, the handlers and
the byte sequence, and after every single byte fed to the loop body from a
state in which the invariant holds, the cursor satisfies
`0 <= cliBufIndex <= 32` (indeed `<= 31`) and every byte of
`cliBuf[0 .. cliBufIndex)` lies in the printable range 0x20 .. 0x7E. -/
theorem C2_line_editor_invariant (X : Collab) (esc : Esc) (polls : List Poll) :
    (let s := (cliRun X polls (cliInit X (boot esc), [])).1
     0 ≤ s.cliBufIndex ∧ s.cliBufIndex ≤ 32 ∧
       ∀ i : Nat, (i : Int) < s.cliBufIndex → 0x20 ≤ s.cliBuf.getD i 0 ∧ s.cliBuf.getD i 0 ≤ 0x7E) ∧
    EditorInv (cliRun X polls (cliInit X (boot esc), [])).1 ∧
    ∀ (byte : Nat) (s : Cli), EditorInv s → EditorInv (cliCheckByte X byte s).1 := by
  have hinv : EditorInv (cliRun X polls (cliInit X (boot esc), [])).1 :=
    cliRun_induction X EditorInv (fun _ _ h => h) (cliCheckTelemetry_inv X)
      (cliCheckByte_inv X) polls _ (cliPrompt_inv _)
  refine ⟨?_, hinv, cliCheckByte_inv X⟩
  obtain ⟨_, h0, h31, hpr⟩ := hinv
  exact ⟨h0, by omega, hpr⟩

/-! ## Typing, overflow and end of line -/

theorem feed_append (X : Collab) : ∀ (a b : List Nat) (s : Cli),
    feed X (a ++ b) s = feed X b (feed X a s)
  | [], _, _ => rfl
  | c :: a, b, s => by
    simp only [List.cons_append, feed]
    exact feed_append X a b _

theorem lookups_append (a b : List Event) : lookups (a ++ b) = lookups a ++ lookups b := by
  simp [lookups]

theorem calls_append (a b : List Event) : calls (a ++ b) = calls a ++ calls b := by
  simp [calls]

theorem lookups_storesFrom (k n : Nat) : lookups (storesFrom k n) = [] := by
  simp [lookups, storesFrom]

theorem calls_storesFrom (k n : Nat) : calls (storesFrom k n) = [] := by
  simp [calls, storesFrom]

/-- A printable byte typed while fewer than 31 bytes are stored is appended
and echoed. -/
theorem cliCheckByte_printable (X : Collab) (c : Nat) (s : Cli) (k : Nat)
    (hc : printable c) (hidx : s.cliBufIndex = (k : Int)) (hk : k < 31) :
    cliCheckByte X c s =
      ({ s with cliBuf := s.cliBuf.set k c, cliBufIndex := (k : Int) + 1,
                env := serialWrite c s.env,
                trace := s.trace ++ [Event.store (k : Int)] }, false) := by
  unfold printable at hc
  have hmod : c % 256 = c := Nat.mod_eq_of_lt (by omega)
  have h32 : ¬ ((k : Int) + 1 = 32) := by omega
  have h10 : ¬ c = 10 := by omega
  have h13 : ¬ c = 13 := by omega
  have h3 : ¬ c = CLI_INTR := by unfold CLI_INTR; omega
  have h8 : ¬ c = CLI_BS := by unfold CLI_BS; omega
  have hr : ¬ (c < 32 ∨ c > 126) := by omega
  have h0 : (0 : Int) ≤ (k : Int) := by omega
  simp [cliCheckByte, hidx, hmod, h32, h10, h13, h3, h8, hr, bufStore, h0]

/-- Typing printable bytes into a buffer that keeps at most 31 of them
appends them at the cursor and echoes them; nothing is looked up. -/
theorem feed_printable (X : Collab) (w : List Nat) :
    (∀ c ∈ w, printable c) → ∀ (s : Cli) (pre r : List Nat),
      s.cliBuf = pre ++ r → s.cliBufIndex = (pre.length : Int) →
      pre.length + w.length ≤ 31 → (pre ++ r).length = 32 →
      feed X w s =
        { s with cliBuf := pre ++ w ++ r.drop w.length,
                 cliBufIndex := ((pre.length + w.length : Nat) : Int),
                 env := { s.env with out := s.env.out ++ w },
                 trace := s.trace ++ storesFrom pre.length w.length } := by
  induction w using List.reverseRecOn with
  | nil =>
    intro _ s pre r hbuf hidx _ _
    cases s
    simp_all [feed, storesFrom]
  | append_singleton w c ih =>
    intro hw s pre r hbuf hidx hlen h32
    have hw1 : ∀ c ∈ w, printable c := fun x hx => hw x (by simp [hx])
    have hc : printable c := hw c (by simp)
    simp only [List.length_append, List.length_singleton] at hlen h32
    rw [feed_append, ih hw1 s pre r hbuf hidx (by omega) (by simp; omega)]
    simp only [feed]
    rw [cliCheckByte_printable X c _ (pre.length + w.length) hc rfl (by omega)]
    have hlt : w.length < r.length := by omega
    have hd : List.drop w.length r = r[w.length] :: List.drop (w.length + 1) r :=
      (List.getElem_cons_drop r w.length hlt).symm
    have hset : (pre ++ w ++ List.drop w.length r).set (pre.length + w.length) c
        = pre ++ (w ++ [c]) ++ List.drop (w.length + 1) r := by
      rw [List.set_append_right _ _ (by simp)]
      simp only [List.length_append, Nat.sub_self, List.append_assoc]
      rw [hd]
      rfl
    have hcast : ((pre.length + w.length : Nat) : Int) + 1
        = ((pre.length + (w.length + 1) : Nat) : Int) := by omega
    simp only [List.append_assoc] at hset
    simp only [hset, hcast, serialWrite, List.append_assoc, List.length_append,
      List.length_singleton, storesFrom, List.range_succ, List.map_append, List.map_cons,
      List.map_nil]

/-- Reading the C string of a buffer that holds `l`, a NUL, and anything. -/
theorem cstrAt_zero_of_eq (l rest : List Nat) (hl : ∀ c ∈ l, c ≠ 0) :
    cstrAt (l ++ 0 :: rest) 0 = l := by
  unfold cstrAt
  rw [List.drop_zero, List.takeWhile_append_of_pos (by simpa using hl)]
  simp

/-- Reading the C string that starts `n` bytes into such a buffer. -/
theorem cstrAt_of_eq (l rest : List Nat) (n : Nat) (hl : ∀ c ∈ l, c ≠ 0) (hn : n ≤ l.length) :
    cstrAt (l ++ 0 :: rest) n = l.drop n := by
  unfold cstrAt
  rw [List.drop_append_of_le_length hn, List.takeWhile_append_of_pos]
  · simp
  · intro c hc
    simpa using hl c (List.mem_of_mem_drop hc)

theorem printable_ne_zero {c : Nat} (h : printable c) : c ≠ 0 := by
  unfold printable at h
  omega

/-- The row found for a line is no longer than the line. -/
theorem cliCommandGet_name_length (line : List Nat) (cmd : cliCommand_t)
    (h : cliCommandGet line = some cmd) : cmd.name.length ≤ line.length := by
  have hp := (cliCommandGet_some line cmd h).2
  have := (List.isPrefixOf_iff_prefix.1 hp).length_le
  simpa using this

/-- The dispatch of a buffer that holds `line`, a NUL, and anything. -/
theorem cliDispatch_trace (X : Collab) (s : Cli) (line rest : List Nat)
    (hbuf : s.cliBuf = line ++ 0 :: rest) (hl : ∀ c ∈ line, c ≠ 0) :
    (cliDispatch X s).trace = s.trace ++ dispatchEvents line := by
  unfold cliDispatch dispatchEvents
  simp only [hbuf, cstrAt_zero_of_eq line rest hl]
  cases hget : cliCommandGet line with
  | none => simp
  | some cmd =>
    simp only [strlen]
    rw [cstrAt_of_eq line rest _ hl (cliCommandGet_name_length line cmd hget)]
    simp

theorem cliSubmit_trace (X : Collab) (s : Cli) :
    (cliSubmit X s).1.trace =
      (cliDispatch X { s with
        env := s.env |> serialPrint (str "\r\n") |> serialPrint cliClearEOS,
        cliBuf := bufStore s.cliBuf s.cliBufIndex 0,
        trace := s.trace ++ [Event.store s.cliBufIndex] }).trace := by
  unfold cliSubmit
  simp only []
  split <;> rfl

theorem bufStore_ofNat (buf : List Nat) (k : Nat) (v : Nat) :
    bufStore buf (k : Int) v = buf.set k v := by
  simp [bufStore]

/-- A byte typed while 31 bytes are stored fills the buffer: whatever the byte
is, the 31 stored bytes are submitted and the byte itself is overwritten by the
terminating NUL. -/
theorem cliCheckByte_full (X : Collab) (c : Nat) (s : Cli) (w : List Nat) (x : Nat)
    (hbuf : s.cliBuf = w ++ [x]) (hw : w.length = 31) (hidx : s.cliBufIndex = 31)
    (hnz : ∀ b ∈ w, b ≠ 0) :
    (cliCheckByte X c s).1.trace =
      s.trace ++ [Event.store 31, Event.store 31] ++ dispatchEvents w := by
  have h1 : ((31 : Int) + 1 = 32) := by decide
  have h2 : ¬ ((32 : Int) - 1 = 0) := by decide
  have h3 : (1 : Int) < 32 - 1 := by decide
  have h4 : ((32 : Int) - 1) = ((31 : Nat) : Int) := by decide
  have h5 : (31 : Int) = ((31 : Nat) : Int) := by decide
  simp only [cliCheckByte, hidx, h1, decide_True, if_true, ne_eq, h2, not_false_eq_true,
    true_or, and_self, gt_iff_lt, h3]
  rw [cliSubmit_trace]
  rw [cliDispatch_trace X _ w [] _ hnz]
  · simp [h4]
  · simp only [hbuf, h4]
    rw [h5, bufStore_ofNat, bufStore_ofNat, ← hw]
    simp

/-- CR or LF typed after `n` stored bytes, `1 <= n <= 30`: the stored bytes
and the terminator byte are submitted; the NUL goes behind the terminator. -/
theorem cliCheckByte_eol (X : Collab) (t : Nat) (s : Cli) (w r : List Nat)
    (ht : t = 10 ∨ t = 13)
    (hbuf : s.cliBuf = w ++ r) (h32 : (w ++ r).length = 32)
    (hw1 : 1 ≤ w.length) (hw30 : w.length ≤ 30) (hidx : s.cliBufIndex = (w.length : Int))
    (hnz : ∀ b ∈ w, b ≠ 0) :
    (cliCheckByte X t s).1.trace =
      s.trace ++ [Event.store (w.length : Int), Event.store ((w.length : Int) + 1)]
        ++ dispatchEvents (w ++ [t]) := by
  have hmod : t % 256 = t := by rcases ht with h | h <;> subst h <;> rfl
  have h1 : ¬ ((w.length : Int) + 1 = 32) := by omega
  have h2 : ¬ ((w.length : Int) + 1 = 0) := by omega
  have h3 : (1 : Int) < (w.length : Int) + 1 := by omega
  have h4 : (w.length : Int) + 1 = ((w.length + 1 : Nat) : Int) := by omega
  simp only [cliCheckByte, hidx, hmod, h1, decide_False, Bool.false_eq_true, if_false, ne_eq,
    h2, not_false_eq_true, ht, and_self, if_true, gt_iff_lt, h3]
  rw [cliSubmit_trace]
  simp only [List.length_append] at h32
  obtain ⟨x, y, r2, hr⟩ : ∃ x y r2, r = x :: y :: r2 := by
    match r, h32 with
    | [], h => simp at h; omega
    | [_], h => simp at h; omega
    | x :: y :: r2, _ => exact ⟨x, y, r2, rfl⟩
  rw [cliDispatch_trace X _ (w ++ [t]) r2]
  · simp
  · simp only [hbuf, hr]
    rw [h4, bufStore_ofNat, bufStore_ofNat]
    rw [List.set_append_right _ _ (by omega), List.set_append_right _ _ (by simp)]
    simp
  · intro b hb
    simp only [List.mem_append, List.mem_singleton] at hb
    rcases hb with hb | hb
    · exact hnz b hb
    · rcases ht with h | h <;> omega

theorem lookups_store (i : Int) (t : List Event) :
    lookups (Event.store i :: t) = lookups t := rfl

theorem calls_store (i : Int) (t : List Event) :
    calls (Event.store i :: t) = calls t := rfl

theorem lookups_nil : lookups [] = [] := rfl

theorem calls_nil : calls [] = [] := rfl

theorem lookups_dispatchEvents (line : List Nat) : lookups (dispatchEvents line) = [line] := by
  unfold dispatchEvents
  cases cliCommandGet line <;> simp [lookups]

theorem calls_dispatchEvents (line : List Nat) :
    calls (dispatchEvents line) = dispatchCalls line := by
  unfold dispatchEvents dispatchCalls
  cases cliCommandGet line <;> simp [calls]

/-- State reached by typing at most 31 printable bytes at an empty buffer. -/
theorem feed_printable_empty (X : Collab) (w : List Nat) (s : Cli)
    (hw : ∀ b ∈ w, printable b) (hempty : s.cliBufIndex = 0) (hlen : s.cliBuf.length = 32)
    (h31 : w.length ≤ 31) :
    feed X w s =
      { s with cliBuf := w ++ s.cliBuf.drop w.length,
               cliBufIndex := (w.length : Int),
               env := { s.env with out := s.env.out ++ w },
               trace := s.trace ++ storesFrom 0 w.length } := by
  have := feed_printable X w hw s [] s.cliBuf rfl (by simpa using hempty) (by simpa using h31)
    (by simpa using hlen)
  simpa using this

/-- The editor invariant is kept by any sequence of bytes. -/
theorem feed_inv (X : Collab) : ∀ (bytes : List Nat) (s : Cli),
    EditorInv s → EditorInv (feed X bytes s)
  | [], _, h => h
  | c :: rest, s, h => by
    simp only [feed]
    exact feed_inv X rest _ (cliCheckByte_inv X c s h)

/-- In any state that satisfies the editor invariant with 31 bytes stored,
however they got there, the next byte fills the buffer and the 31 stored bytes
are submitted. -/
theorem cliCheckByte_full_of_inv (X : Collab) (c : Nat) (s : Cli) (hinv : EditorInv s)
    (hidx : s.cliBufIndex = 31) :
    (cliCheckByte X c s).1.trace =
      s.trace ++ [Event.store 31, Event.store 31] ++ dispatchEvents (s.cliBuf.take 31) := by
  obtain ⟨hlen, _, _, hpr⟩ := hinv
  have hk : 31 < s.cliBuf.length := by omega
  have hsplit : s.cliBuf = s.cliBuf.take 31 ++ [s.cliBuf[31]] := by
    have hd : s.cliBuf.drop 32 = [] := List.drop_eq_nil_of_le (by omega)
    have h1 : s.cliBuf.drop 31 = [s.cliBuf[31]] := by
      rw [← List.getElem_cons_drop _ _ hk, hd]
    conv_lhs => rw [← List.take_append_drop 31 s.cliBuf, h1]
  have htk : (s.cliBuf.take 31).length = 31 := by
    simp only [List.length_take]
    omega
  have hnz : ∀ b ∈ s.cliBuf.take 31, b ≠ 0 := by
    intro b hb
    obtain ⟨i, hi, rfl⟩ := List.mem_iff_getElem.1 hb
    have hi31 : i < 31 := by
      simp only [List.length_take] at hi
      omega
    have hp := hpr i (by omega)
    rw [List.getElem_take]
    have hget : s.cliBuf.getD i 0 = s.cliBuf[i] := by
      simp [List.getD_eq_getElem?_getD, List.getElem?_eq_getElem (by omega : i < s.cliBuf.length)]
    rw [hget] at hp
    exact printable_ne_zero hp
  exact cliCheckByte_full X c s (s.cliBuf.take 31) s.cliBuf[31] hsplit htk hidx hnz

/-- C3 (amended): overflow-as-submit.  Starting from an empty input buffer,
typing 31 printable bytes submits nothing, and the 32nd byte, whatever it is,
fills the buffer and causes a submission at once, without waiting for CR; the
line handed to the command lookup consists of exactly the first 31 bytes, the
32nd byte being overwritten by the terminating NUL.  More generally, in every
state of the editor with 31 bytes stored (printable bytes below the cursor,
however they were typed: also after backspaces and rejected bytes), the next
byte, whatever it is, fills the buffer, and the stored prefix of 31 bytes is
the line handed to the lookup and, after the command name, to the handler. -/
theorem C3_overflow_submits_first_31 (X : Collab) (s : Cli) (w : List Nat) (c : Nat)
    (hempty : s.cliBufIndex = 0) (hlen : s.cliBuf.length = 32)
    (hw : ∀ b ∈ w, printable b) (h31 : w.length = 31) :
    lookups (feed X w s).trace = lookups s.trace ∧
    lookups (feed X (w ++ [c]) s).trace = lookups s.trace ++ [w] ∧
    calls (feed X (w ++ [c]) s).trace = calls s.trace ++ dispatchCalls w ∧
    (∀ (s1 : Cli) (c1 : Nat), EditorInv s1 → s1.cliBufIndex = 31 →
      lookups (cliCheckByte X c1 s1).1.trace = lookups s1.trace ++ [s1.cliBuf.take 31] ∧
      calls (cliCheckByte X c1 s1).1.trace
        = calls s1.trace ++ dispatchCalls (s1.cliBuf.take 31)) := by
  have hfeed := feed_printable_empty X w s hw hempty hlen (by omega)
  have hnz : ∀ b ∈ w, b ≠ 0 := fun b hb => printable_ne_zero (hw b hb)
  obtain ⟨x, hx⟩ : ∃ x, s.cliBuf.drop w.length = [x] := by
    have hl : (s.cliBuf.drop w.length).length = 1 := by simp [hlen, h31]
    match hd : s.cliBuf.drop w.length, hl with
    | [x], _ => exact ⟨x, rfl⟩
  have hstep := cliCheckByte_full X c (feed X w s) w x (by rw [hfeed, hx])
    h31 (by rw [hfeed]; simp [h31]) hnz
  refine ⟨?_, ?_, ?_, ?_⟩
  · rw [hfeed]
    simp [lookups_append, lookups_storesFrom]
  · rw [feed_append]
    simp only [feed]
    rw [hstep, hfeed]
    simp [lookups_append, lookups_storesFrom, lookups_dispatchEvents, lookups_store, lookups_nil]
  · rw [feed_append]
    simp only [feed]
    rw [hstep, hfeed]
    simp [calls_append, calls_storesFrom, calls_dispatchEvents, calls_store, calls_nil]
  · intro s1 c1 hinv hidx
    rw [cliCheckByte_full_of_inv X c1 s1 hinv hidx]
    constructor
    · simp [lookups_append, lookups_dispatchEvents, lookups_store, lookups_nil]
    · simp [calls_append, calls_dispatchEvents, calls_store, calls_nil]

/-- C4 (amended): for every non-empty sequence `w` of at most 30 printable
bytes typed at an empty buffer and followed by CR or LF, the line handed to
the command lookup is `w` followed by the terminator byte (the NUL is written
behind the CR/LF), and the handler receives what follows the command name in
that line, terminator included; when `w` has 31 bytes the terminator fills
the buffer and the line is exactly `w`. -/
theorem C4_submitted_line_keeps_terminator (X : Collab) (s : Cli) (w : List Nat) (t : Nat)
    (ht : t = 10 ∨ t = 13) (hempty : s.cliBufIndex = 0) (hlen : s.cliBuf.length = 32)
    (hw : ∀ b ∈ w, printable b) (h1 : 1 ≤ w.length) (h31 : w.length ≤ 31) :
    lookups (feed X (w ++ [t]) s).trace
      = lookups s.trace ++ [if w.length ≤ 30 then w ++ [t] else w] ∧
    calls (feed X (w ++ [t]) s).trace
      = calls s.trace ++ dispatchCalls (if w.length ≤ 30 then w ++ [t] else w) := by
  have hfeed := feed_printable_empty X w s hw hempty hlen h31
  have hnz : ∀ b ∈ w, b ≠ 0 := fun b hb => printable_ne_zero (hw b hb)
  by_cases h30 : w.length ≤ 30
  · have hstep := cliCheckByte_eol X t (feed X w s) w (s.cliBuf.drop w.length) ht
      (by rw [hfeed]) (by simp [hlen]; omega) h1 h30 (by rw [hfeed]) hnz
    simp only [h30, if_true]
    constructor
    · rw [feed_append]
      simp only [feed]
      rw [hstep, hfeed]
      simp [lookups_append, lookups_storesFrom, lookups_dispatchEvents, lookups_store, lookups_nil]
    · rw [feed_append]
      simp only [feed]
      rw [hstep, hfeed]
      simp [calls_append, calls_storesFrom, calls_dispatchEvents, calls_store, calls_nil]
  · have hw31 : w.length = 31 := by omega
    obtain ⟨x, hx⟩ : ∃ x, s.cliBuf.drop w.length = [x] := by
      have hl : (s.cliBuf.drop w.length).length = 1 := by simp [hlen, hw31]
      match hd : s.cliBuf.drop w.length, hl with
      | [x], _ => exact ⟨x, rfl⟩
    have hstep := cliCheckByte_full X t (feed X w s) w x (by rw [hfeed, hx])
      hw31 (by rw [hfeed]; simp [hw31]) hnz
    simp only [h30, if_false]
    constructor
    · rw [feed_append]
      simp only [feed]
      rw [hstep, hfeed]
      simp [lookups_append, lookups_storesFrom, lookups_dispatchEvents, lookups_store, lookups_nil]
    · rw [feed_append]
      simp only [feed]
      rw [hstep, hfeed]
      simp [calls_append, calls_storesFrom, calls_dispatchEvents, calls_store, calls_nil]

set_option maxRecDepth 100000 in
/-- C3, the claim as stated fails: 33 letters `a` and a CR typed after
`cliInit` cause two submissions, of the first 31 letters and of the 33rd
letter with the CR; no line of 32 letters is ever handed to the lookup. -/
theorem C3_counterexample :
    lookups (feed demoCollab (List.replicate 33 97 ++ [13])
        (cliInit demoCollab (boot demoEsc))).trace
      = [List.replicate 31 97, [97, 13]] ∧
    List.replicate 32 97 ∉
      lookups (feed demoCollab (List.replicate 33 97 ++ [13])
        (cliInit demoCollab (boot demoEsc))).trace := by
  decide

set_option maxRecDepth 100000 in
/-- Witness of C3 (amended): 31 letters `a` and one `b` typed at an empty
buffer; and a buffer filled after a correction: `ab`, a backspace, a rejected
byte 0x01 and 30 letters `c` leave 31 bytes stored (`a` and the 30 `c`), and
the next byte, here the interrupt byte, submits them. -/
theorem C3_overflow_submits_first_31_witness :
    lookups (feed demoCollab (List.replicate 31 97) (cliPrompt (boot demoEsc))).trace
      = lookups (cliPrompt (boot demoEsc)).trace ∧
    lookups (feed demoCollab (List.replicate 31 97 ++ [98]) (cliPrompt (boot demoEsc))).trace
      = lookups (cliPrompt (boot demoEsc)).trace ++ [List.replicate 31 97] ∧
    calls (feed demoCollab (List.replicate 31 97 ++ [98]) (cliPrompt (boot demoEsc))).trace
      = calls (cliPrompt (boot demoEsc)).trace ++ dispatchCalls (List.replicate 31 97) ∧
    lookups (cliCheckByte demoCollab CLI_INTR
        (feed demoCollab (str "ab" ++ [CLI_BS, 1] ++ List.replicate 30 99)
          (cliPrompt (boot demoEsc)))).1.trace
      = lookups (feed demoCollab (str "ab" ++ [CLI_BS, 1] ++ List.replicate 30 99)
          (cliPrompt (boot demoEsc))).trace
        ++ [(feed demoCollab (str "ab" ++ [CLI_BS, 1] ++ List.replicate 30 99)
          (cliPrompt (boot demoEsc))).cliBuf.take 31] ∧
    (feed demoCollab (str "ab" ++ [CLI_BS, 1] ++ List.replicate 30 99)
        (cliPrompt (boot demoEsc))).cliBuf.take 31 = 97 :: List.replicate 30 99 :=
  have h := C3_overflow_submits_first_31 demoCollab (cliPrompt (boot demoEsc))
    (List.replicate 31 97) 98 rfl (by decide) (by decide) (by decide)
  ⟨h.1, h.2.1, h.2.2.1,
    (h.2.2.2 (feed demoCollab (str "ab" ++ [CLI_BS, 1] ++ List.replicate 30 99)
        (cliPrompt (boot demoEsc))) CLI_INTR
      (feed_inv demoCollab _ _ (cliPrompt_inv _)) (by decide)).1,
    by decide⟩

set_option maxRecDepth 100000 in
/-- C4, the claim as stated fails: after `help` and CR the line handed to the
lookup is `help` with the CR still attached, and the handler receives the CR
as its argument. -/
theorem C4_counterexample :
    lookups (feed demoCollab (str "help\r") (cliInit demoCollab (boot demoEsc))).trace
      = [str "help\r"] ∧
    lookups (feed demoCollab (str "help\r") (cliInit demoCollab (boot demoEsc))).trace
      ≠ [str "help"] ∧
    calls (feed demoCollab (str "help\r") (cliInit demoCollab (boot demoEsc))).trace
      = [(CmdFunc.cliFuncHelp, str "\r")] := by
  decide

set_option maxRecDepth 100000 in
/-- Witness of C4 (amended): `help` and CR typed at an empty buffer. -/
theorem C4_submitted_line_keeps_terminator_witness :
    lookups (feed demoCollab (str "help" ++ [13]) (cliPrompt (boot demoEsc))).trace
      = lookups (cliPrompt (boot demoEsc)).trace
          ++ [if (str "help").length ≤ 30 then str "help" ++ [13] else str "help"] ∧
    calls (feed demoCollab (str "help" ++ [13]) (cliPrompt (boot demoEsc))).trace
      = calls (cliPrompt (boot demoEsc)).trace
          ++ dispatchCalls (if (str "help").length ≤ 30 then str "help" ++ [13] else str "help") :=
  C4_submitted_line_keeps_terminator demoCollab (cliPrompt (boot demoEsc)) (str "help") 13
    (Or.inr rfl) rfl (by decide) (by decide) (by decide) (by decide)

theorem cliCommandTable_letters : ∀ row ∈ cliCommandTable, nameLetters row.name = true := by
  decide

theorem cliCommandTable_prefix_free :
    ∀ a ∈ cliCommandTable, ∀ b ∈ cliCommandTable,
      a.name.isPrefixOf b.name = true → a = b := by
  decide

/-- The interrupt byte typed while at most 30 bytes are stored: the prompt
is printed again and the buffer is cleared. -/
theorem cliCheckByte_intr (X : Collab) (s : Cli) (k : Nat)
    (hidx : s.cliBufIndex = (k : Int)) (hk : k ≤ 30) :
    cliCheckByte X CLI_INTR s =
      (cliPrompt { s with cliBuf := s.cliBuf.set k CLI_INTR, cliBufIndex := (k : Int) + 1,
                          trace := s.trace ++ [Event.store (k : Int)] }, false) := by
  have h32 : ¬ ((k : Int) + 1 = 32) := by omega
  have h0 : (0 : Int) ≤ (k : Int) := by omega
  simp [cliCheckByte, hidx, h32, CLI_INTR, bufStore, h0]

/-- C7 (amended): in every editor state with at most 30 bytes stored, the
interrupt byte `CLI_INTR` discards the buffer and prompts again
(`cliBufIndex = 0`, all 32 cells zero, the prompt printed and nothing else)
without a command lookup and without a handler call, and `cliCheck` goes on
with the next byte. -/
theorem C7_interrupt_discards_buffer (X : Collab) (s : Cli)
    (h0 : 0 ≤ s.cliBufIndex) (h30 : s.cliBufIndex ≤ 30) :
    (cliCheckByte X CLI_INTR s).2 = false ∧
    (cliCheckByte X CLI_INTR s).1.cliBufIndex = 0 ∧
    (cliCheckByte X CLI_INTR s).1.cliBuf = List.replicate 32 0 ∧
    (cliCheckByte X CLI_INTR s).1.env = { s.env with out := s.env.out ++ str "\r\n> " } ∧
    lookups (cliCheckByte X CLI_INTR s).1.trace = lookups s.trace ∧
    calls (cliCheckByte X CLI_INTR s).1.trace = calls s.trace := by
  obtain ⟨k, hk⟩ := Int.eq_ofNat_of_zero_le h0
  rw [cliCheckByte_intr X s k hk (by omega)]
  simp [cliPrompt, serialPrint, lookups_append, calls_append, lookups_store, calls_store,
    lookups_nil, calls_nil]

/-- Witness of C7 (amended): the interrupt byte right after `cliInit`. -/
theorem C7_interrupt_discards_buffer_witness :
    (cliCheckByte demoCollab CLI_INTR (cliInit demoCollab (boot demoEsc))).2 = false ∧
    (cliCheckByte demoCollab CLI_INTR (cliInit demoCollab (boot demoEsc))).1.cliBufIndex = 0 ∧
    (cliCheckByte demoCollab CLI_INTR (cliInit demoCollab (boot demoEsc))).1.cliBuf
      = List.replicate 32 0 ∧
    (cliCheckByte demoCollab CLI_INTR (cliInit demoCollab (boot demoEsc))).1.env
      = { (cliInit demoCollab (boot demoEsc)).env with
          out := (cliInit demoCollab (boot demoEsc)).env.out ++ str "\r\n> " } ∧
    lookups (cliCheckByte demoCollab CLI_INTR (cliInit demoCollab (boot demoEsc))).1.trace
      = lookups (cliInit demoCollab (boot demoEsc)).trace ∧
    calls (cliCheckByte demoCollab CLI_INTR (cliInit demoCollab (boot demoEsc))).1.trace
      = calls (cliInit demoCollab (boot demoEsc)).trace :=
  C7_interrupt_discards_buffer demoCollab (cliInit demoCollab (boot demoEsc))
    (by decide) (by decide)

set_option maxRecDepth 100000 in
/-- C7, the claim as stated fails: with `arm` and 28 blanks typed after
`cliInit` the buffer holds 31 bytes and nothing has been looked up; the
interrupt byte then fills the buffer, and the line is looked up and
`cliFuncArm` is called. -/
theorem C7_counterexample :
    (feed demoCollab (str "arm" ++ List.replicate 28 32)
        (cliInit demoCollab (boot demoEsc))).cliBufIndex = 31 ∧
    lookups (feed demoCollab (str "arm" ++ List.replicate 28 32)
        (cliInit demoCollab (boot demoEsc))).trace = [] ∧
    lookups (cliCheckByte demoCollab CLI_INTR
        (feed demoCollab (str "arm" ++ List.replicate 28 32)
          (cliInit demoCollab (boot demoEsc)))).1.trace
      = [str "arm" ++ List.replicate 28 32] ∧
    calls (cliCheckByte demoCollab CLI_INTR
        (feed demoCollab (str "arm" ++ List.replicate 28 32)
          (cliInit demoCollab (boot demoEsc)))).1.trace
      = [(CmdFunc.cliFuncArm, List.replicate 28 32)] := by
  decide

/-! ## Abbreviations -/

/-- C5, the claim as stated fails: `he` is a non-empty prefix of the command
name `help` and of no other command name, yet the lookup finds no row for
`he`, neither alone nor with the CR of the submission attached. -/
theorem C5_counterexample :
    str "he" ≠ [] ∧
    (str "he").isPrefixOf (str "help") = true ∧
    (∀ row ∈ cliCommandTable, (str "he").isPrefixOf row.name = true → row.name = str "help") ∧
    cliCommandGet (str "he") = none ∧
    cliCommandGet (str "he\r") = none := by
  decide

theorem nameLetters_mem {name : List Nat} (h : nameLetters name = true) :
    ∀ c ∈ name, 97 ≤ c ∧ c ≤ 122 := by
  intro c hc
  simp only [nameLetters, List.all_eq_true, decide_eq_true_eq] at h
  exact h c hc

/-- C5 (amended): a command is found when its full name is typed, in any
letter case and followed by anything; it cannot be abbreviated: for every
command name and every proper prefix `q` of it (in any letter case), alone or
followed by bytes of which the first is not a letter (such as the CR or LF of
the submission, or a blank), the lookup returns no row. -/
theorem C5_full_name_required (row : cliCommand_t) (hrow : row ∈ cliCommandTable) :
    (∀ typed rest : List Nat, typed.map tolower = row.name →
      cliCommandGet (typed ++ rest) = some row) ∧
    (∀ q rest : List Nat, (q.map tolower).isPrefixOf row.name = true →
      q.length < row.name.length →
      (∀ c ∈ rest.head?, ¬ (97 ≤ tolower c ∧ tolower c ≤ 122)) →
      cliCommandGet (q ++ rest) = none) := by
  have hok := cliCommandTable_names_ok row hrow
  constructor
  · intro typed rest htyped
    apply cliCommandGet_of_prefix _ row hrow
    rw [nameOk_map_tolower hok, List.map_append, htyped]
    simp
  · intro q rest hq hlen hrest
    cases hget : cliCommandGet (q ++ rest) with
    | none => rfl
    | some row2 =>
      exfalso
      obtain ⟨hrow2, hpre2⟩ := cliCommandGet_some _ _ hget
      rw [nameOk_map_tolower (cliCommandTable_names_ok row2 hrow2), List.map_append] at hpre2
      have hp2 : row2.name <+: q.map tolower ++ rest.map tolower :=
        List.isPrefixOf_iff_prefix.1 hpre2
      have hq1 : q.map tolower <+: row.name := List.isPrefixOf_iff_prefix.1 hq
      rcases List.prefix_or_prefix_of_prefix hp2 (List.prefix_append _ _) with h | h
      · -- the found name is a prefix of `q`, hence a proper prefix of the name
        have h3 : row2.name <+: row.name := h.trans hq1
        have heq := cliCommandTable_prefix_free row2 hrow2 row hrow
          (List.isPrefixOf_iff_prefix.2 h3)
        have := h.length_le
        rw [heq] at this
        simp at this
        omega
      · -- `q` is a prefix of the found name
        obtain ⟨t, ht⟩ := h
        rw [← ht] at hp2
        have hp3 : t <+: rest.map tolower := (List.prefix_append_right_inj _).1 hp2
        cases t with
        | nil =>
          have h3 : row2.name <+: row.name := by
            rw [← ht, List.append_nil]
            exact hq1
          have heq := cliCommandTable_prefix_free row2 hrow2 row hrow
            (List.isPrefixOf_iff_prefix.2 h3)
          have hl : row2.name.length = q.length := by
            rw [← ht]
            simp
          rw [heq] at hl
          omega
        | cons x t =>
          have hx : x ∈ row2.name := by
            rw [← ht]
            simp
          have hletter := nameLetters_mem (cliCommandTable_letters row2 hrow2) x hx
          cases rest with
          | nil =>
            have := hp3.length_le
            simp at this
          | cons c rest =>
            obtain ⟨u, hu⟩ := hp3
            simp only [List.map_cons, List.cons_append, List.cons.injEq] at hu
            have := hrest c (by simp)
            rw [← hu.1] at this
            exact this hletter

/-- Witness of C5 (amended): the row `help`. -/
theorem C5_full_name_required_witness :
    (∀ typed rest : List Nat, typed.map tolower = str "help" →
      cliCommandGet (typed ++ rest) = some ⟨str "help", str "", .cliFuncHelp⟩) ∧
    (∀ q rest : List Nat, (q.map tolower).isPrefixOf (str "help") = true →
      q.length < (str "help").length →
      (∀ c ∈ rest.head?, ¬ (97 ≤ tolower c ∧ tolower c ≤ 122)) →
      cliCommandGet (q ++ rest) = none) :=
  C5_full_name_required ⟨str "help", str "", .cliFuncHelp⟩ (by decide)

/-! ## The telemetry period and the telemetry frame -/

theorem serialPrint_cliTelemetry (t : List Nat) (e : Env) :
    (serialPrint t e).cliTelemetry = e.cliTelemetry := rfl

theorem serialWrite_cliTelemetry (c : Nat) (e : Env) :
    (serialWrite c e).cliTelemetry = e.cliTelemetry := rfl

theorem cliUsage_cliTelemetry (cmd : cliCommand_t) (e : Env) :
    (cliUsage cmd e).cliTelemetry = e.cliTelemetry := rfl

theorem cliFuncChangeInput_cliTelemetry (i : Nat) (e : Env) :
    (cliFuncChangeInput i e).cliTelemetry = e.cliTelemetry := by
  unfold cliFuncChangeInput
  split <;> rfl

theorem cliFuncDisarm_cliTelemetry (X : Collab) (e : Env) :
    (cliFuncDisarm X e).cliTelemetry = e.cliTelemetry := by
  simp [cliFuncDisarm, serialPrint_cliTelemetry, cliFuncChangeInput_cliTelemetry]

theorem cliFuncInput_cliTelemetry (X : Collab) (cmd : cliCommand_t) (l : List Nat) (e : Env) :
    (cliFuncInput X cmd l e).cliTelemetry = e.cliTelemetry := by
  unfold cliFuncInput
  split
  · rfl
  · simp only []
    split
    · simp [cliFuncChangeInput_cliTelemetry, cliFuncDisarm_cliTelemetry]
    · rfl

theorem tdiv_1000_range (freq : Nat) (h0 : 0 < freq) (h100 : freq ≤ 100) :
    Int.tdiv 1000 (freq : Int) = ((1000 / freq : Nat) : Int) ∧
      10 ≤ 1000 / freq ∧ 1000 / freq ≤ 1000 := by
  refine ⟨?_, ?_, Nat.div_le_self _ _⟩
  · have : (1000 : Int) = ((1000 : Nat) : Int) := rfl
    rw [this, Int.ofNat_tdiv]
  · rw [Nat.le_div_iff_mul_le h0]
    omega

theorem cliFuncTelemetry_TelOk (scan : Option Nat) (cmd : cliCommand_t) (e : Env)
    (h : TelOk e.cliTelemetry) : TelOk (cliFuncTelemetry scan cmd e).cliTelemetry := by
  unfold cliFuncTelemetry
  split
  · exact h
  · rename_i freq
    split
    · exact h
    · split
      · rename_i h1 h2
        obtain ⟨ha, hb, hc⟩ := tdiv_1000_range freq h2 (by omega)
        simp only [serialWrite_cliTelemetry, serialPrint_cliTelemetry, ha]
        right
        omega
      · left
        rfl

theorem cliFuncBinary_TelOk (e : Env) (h : TelOk e.cliTelemetry) :
    TelOk (cliFuncBinary e).cliTelemetry := by
  unfold cliFuncBinary
  split
  · exact h
  · left
    rfl

theorem cmdFunc_TelOk (X : Collab) (cmd : cliCommand_t) (l : List Nat) (e : Env)
    (h : TelOk e.cliTelemetry) : TelOk (cmdFunc X cmd l e).cliTelemetry := by
  unfold cmdFunc
  split
  · exact cliFuncBinary_TelOk e h
  · rw [cliFuncDisarm_cliTelemetry]; exact h
  · rw [cliFuncInput_cliTelemetry]; exact h
  · exact h
  · exact cliFuncTelemetry_TelOk _ _ _ h
  · exact h
  · exact h

theorem cliDispatch_TelInv (X : Collab) (s : Cli) (h : TelInv s) : TelInv (cliDispatch X s) := by
  obtain ⟨h1, h2⟩ := h
  unfold cliDispatch
  simp only []
  split
  · exact ⟨cmdFunc_TelOk X _ _ _ h1, by simp [h2]⟩
  · exact ⟨h1, by simp [h2]⟩

theorem cliPrompt_TelInv (s : Cli) (h : TelInv s) : TelInv (cliPrompt s) := h

theorem cliSubmit_TelInv (X : Collab) (s : Cli) (h : TelInv s) : TelInv (cliSubmit X s).1 := by
  have hd : TelInv (cliDispatch X { s with
        env := s.env |> serialPrint (str "\r\n") |> serialPrint cliClearEOS,
        cliBuf := bufStore s.cliBuf s.cliBufIndex 0,
        trace := s.trace ++ [Event.store s.cliBufIndex] }) :=
    cliDispatch_TelInv X _ ⟨h.1, by simp [h.2]⟩
  unfold cliSubmit
  simp only []
  split
  · exact hd
  · exact hd

theorem cliCheckByte_TelInv (X : Collab) (c : Nat) (s : Cli) (h : TelInv s) :
    TelInv (cliCheckByte X c s).1 := by
  have hs : ∀ (b : List Nat) (i : Int),
      TelInv { s with cliBuf := b, cliBufIndex := i,
                      trace := s.trace ++ [Event.store s.cliBufIndex] } :=
    fun b i => ⟨h.1, by simp [h.2]⟩
  by_cases hfull : s.cliBufIndex + 1 = 32
  · have h1 : (1 : Int) < 32 - 1 := by decide
    have h2 : ¬ ((32 : Int) - 1 = 0) := by decide
    simp only [cliCheckByte, hfull, decide_True, if_true, ne_eq, h2, not_false_eq_true, true_or,
      and_self, gt_iff_lt, h1]
    exact cliSubmit_TelInv X _ (hs _ _)
  · simp only [cliCheckByte, hfull, decide_False, Bool.false_eq_true, if_false]
    split
    · split
      · exact cliSubmit_TelInv X _ (hs _ _)
      · exact cliPrompt_TelInv _ (hs _ _)
    · split
      · exact cliPrompt_TelInv _ (hs _ _)
      · split
        · split
          · exact ⟨h.1, by simp [h.2]⟩
          · exact hs _ _
        · split
          · exact ⟨h.1, by simp [h.2]⟩
          · exact ⟨h.1, by simp [h.2]⟩

theorem cliCheckTelemetry_TelInv (X : Collab) (rm : Nat) (s : Cli) (h : TelInv s) :
    TelInv (cliCheckTelemetry X rm s) := by
  unfold cliCheckTelemetry
  split
  · rename_i hne
    simp only []
    split
    · exact ⟨h.1, by simp [telemetryFrame, h.2]; exact fun hz => hne hz.symm⟩
    · exact ⟨h.1, by simp [h.2]; exact fun hz => hne hz.symm⟩
  · exact h

/-- Along every run from `cliInit` the period is 0 or within 10 .. 1000 and no
`%` has been evaluated with divisor 0. -/
theorem cliRun_TelInv (X : Collab) (esc : Esc) (polls : List Poll) :
    TelInv (cliRun X polls (cliInit X (boot esc), [])).1 :=
  cliRun_induction X TelInv (fun _ _ h => h) (cliCheckTelemetry_TelInv X)
    (cliCheckByte_TelInv X) polls _ ⟨Or.inl rfl, by simp [cliInit, cliPrompt, boot]⟩

theorem telemetryFrame_out (X : Collab) (s : Cli) :
    (telemetryFrame X s).env.out = s.env.out ++ frameText X s := by
  simp [telemetryFrame, frameText, serialPrint, cliFuncStatus]

theorem telemetryFrame_frame (X : Collab) (s : Cli) :
    (telemetryFrame X s).cliBuf = s.cliBuf ∧
      (telemetryFrame X s).cliBufIndex = s.cliBufIndex ∧
      (telemetryFrame X s).env.cliTelemetry = s.env.cliTelemetry ∧
      (telemetryFrame X s).trace = s.trace :=
  ⟨rfl, rfl, rfl, rfl⟩

/-- C9: the `telemetry` handler with a parsed value `Hz`: above 100 it prints
the out-of-range message and leaves the period unchanged; 0 sets the period to
0; from 1 to 100 it sets the period to `1000 / Hz` rounded down.  And along
every run from `cliInit`, in which `cliTelemetry` starts at 0 and only
`telemetry` and `binary` write it, the period is 0 or within 10 .. 1000. -/
theorem C9_telemetry_period (X : Collab) (esc : Esc) (polls : List Poll)
    (cmd : cliCommand_t) (e : Env) (Hz : Nat) :
    (100 < Hz → cliFuncTelemetry (some Hz) cmd e =
      serialPrint (str "Frequency out of range: 0 => 100\r\n") e) ∧
    (Hz = 0 → cliFuncTelemetry (some Hz) cmd e = { e with cliTelemetry := 0 }) ∧
    (1 ≤ Hz → Hz ≤ 100 →
      (cliFuncTelemetry (some Hz) cmd e).cliTelemetry = ((1000 / Hz : Nat) : Int)) ∧
    ((cliRun X polls (cliInit X (boot esc), [])).1.env.cliTelemetry = 0 ∨
      (10 ≤ (cliRun X polls (cliInit X (boot esc), [])).1.env.cliTelemetry ∧
        (cliRun X polls (cliInit X (boot esc), [])).1.env.cliTelemetry ≤ 1000)) := by
  refine ⟨?_, ?_, ?_, (cliRun_TelInv X esc polls).1⟩
  · intro h
    simp [cliFuncTelemetry, h]
  · intro h
    subst h
    simp [cliFuncTelemetry]
  · intro h1 h100
    have hgt : ¬ (100 < Hz) := by omega
    have hpos : 0 < Hz := by omega
    simp only [cliFuncTelemetry, gt_iff_lt, hgt, if_false, hpos, if_true,
      serialWrite_cliTelemetry, serialPrint_cliTelemetry]
    exact (tdiv_1000_range Hz hpos h100).1

/-- Witness of C9: `telemetry 101`, `telemetry 0` and `telemetry 3` (period
333 ms), and the run `telemetry 100` from `cliInit`. -/
theorem C9_telemetry_period_witness :
    cliFuncTelemetry (some 101) ⟨str "telemetry", str "<Hz>", .cliFuncTelemetry⟩
        (boot demoEsc).env
      = serialPrint (str "Frequency out of range: 0 => 100\r\n") (boot demoEsc).env ∧
    (cliFuncTelemetry (some 3) ⟨str "telemetry", str "<Hz>", .cliFuncTelemetry⟩
        (boot demoEsc).env).cliTelemetry = 333 :=
  ⟨(C9_telemetry_period demoCollab demoEsc [] ⟨str "telemetry", str "<Hz>", .cliFuncTelemetry⟩
      (boot demoEsc).env 101).1 (by decide),
   (C9_telemetry_period demoCollab demoEsc [] ⟨str "telemetry", str "<Hz>", .cliFuncTelemetry⟩
      (boot demoEsc).env 3).2.2.1 (by decide) (by decide)⟩

/-! ## The `input` command -/

theorem cliFuncChangeInput_inputMode (i : Nat) (e : Env) :
    (cliFuncChangeInput i e).esc.inputMode = i := by
  unfold cliFuncChangeInput
  split
  · rfl
  · rename_i h
    simpa using h

theorem cliFuncDisarm_inputMode (X : Collab) (e : Env) :
    (cliFuncDisarm X e).esc.inputMode = ESC_INPUT_UART := by
  simp only [cliFuncDisarm]
  exact cliFuncChangeInput_inputMode _ _

set_option maxRecDepth 100000 in
/-- C6, evaluation at the failing input: the argument `OW` of the `input`
command (as the dispatcher passes it, with the blank before and the CR after
it) selects the fifth row of `cliInputModes`: after the disarm the input mode
is set to OW and the line "Input mode set to OW" is printed, and no usage line. -/
theorem C6_input_OW_selects_OW (X : Collab) (cmd : cliCommand_t) (e : Env) :
    cliFuncInput X cmd (str " OW\r") e =
      serialPrint (str "Input mode set to OW\r\n")
        { cliFuncDisarm X e with
          esc := { (cliFuncDisarm X e).esc with inputMode := ESC_INPUT_OW } } ∧
    (cliFuncInput X cmd (str " OW\r") e).esc.inputMode = ESC_INPUT_OW ∧
    (feed demoCollab (str "input OW\r") (cliInit demoCollab (boot demoEsc))).env.esc.inputMode
      = ESC_INPUT_OW := by
  have hscan : sscanf_s 7 (str " OW\r") = some (str "OW") := by decide
  have hidx : cliInputModes.findIdx (fun m => decide (strncasecmp m (str "OW") 3 = 0)) = 4 := by
    decide
  have hlen : cliInputModes.length = 5 := rfl
  have hne : (cliFuncDisarm X e).esc.inputMode ≠ 4 := by
    rw [cliFuncDisarm_inputMode]
    decide
  have hname : cliInputModes.getD 4 [] = str "OW" := rfl
  have h1 : cliFuncInput X cmd (str " OW\r") e =
      serialPrint (str "Input mode set to OW\r\n")
        { cliFuncDisarm X e with
          esc := { (cliFuncDisarm X e).esc with inputMode := ESC_INPUT_OW } } := by
    have h45 : (4 : Nat) < 5 := by decide
    simp only [cliFuncInput, hscan, hidx, hlen, h45, if_true]
    unfold cliFuncChangeInput
    rw [if_pos hne, hname]
    rfl
  refine ⟨h1, ?_, by decide⟩
  rw [h1]
  rfl

/-! ## Repaint after a rejected byte -/

/-- A rejected byte (outside 0x20 .. 0x7E and none of CR, LF, interrupt,
backspace) typed while at most 30 bytes are stored: the bell is sent and the
cursor stays, but the byte stays in the cell at the cursor. -/
theorem cliCheckByte_reject (X : Collab) (c : Nat) (s : Cli) (k : Nat)
    (hc : c < 32 ∨ (126 < c ∧ c < 256)) (h10 : c ≠ 10) (h13 : c ≠ 13) (h3 : c ≠ CLI_INTR)
    (h8 : c ≠ CLI_BS) (hidx : s.cliBufIndex = (k : Int)) (hk : k ≤ 30) :
    cliCheckByte X c s =
      ({ s with cliBuf := s.cliBuf.set k c, cliBufIndex := (k : Int),
                env := serialWrite CLI_BELL s.env,
                trace := s.trace ++ [Event.store (k : Int)] }, false) := by
  have hmod : c % 256 = c := Nat.mod_eq_of_lt (by omega)
  have h32 : ¬ ((k : Int) + 1 = 32) := by omega
  have hr : c < 32 ∨ c > 126 := by omega
  have h0 : (0 : Int) ≤ (k : Int) := by omega
  simp [cliCheckByte, hidx, hmod, h32, h10, h13, h3, h8, hr, bufStore, h0]

set_option maxRecDepth 100000 in
/-- C10, evaluation at the failing input: after the prompt, the letter `a`
and the rejected byte 0x01 leave one byte in the buffer (`cliBufIndex = 1`,
contents `a`), but the rejected byte stays in `cliBuf[1]`; a telemetry frame
then prints `a` and 0x01 between the prompt and the clear-to-end-of-line
sequence.  The frame leaves `cliBuf` and `cliBufIndex` as they are.  The same
in a run from `cliInit`: `telemetry 100`, then `a` and 0x01, then a call of
`cliCheck` at 10 ms, whose output ends with the prompt, `a`, 0x01 and
clear-to-end-of-line. -/
theorem C10_repaint_prints_stale_byte (X : Collab) (s : Cli) :
    (feed X [97, 1] (cliPrompt s)).cliBufIndex = 1 ∧
    (feed X [97, 1] (cliPrompt s)).cliBuf.take 1 = [97] ∧
    cstrAt (feed X [97, 1] (cliPrompt s)).cliBuf 0 = [97, 1] ∧
    (telemetryFrame X (feed X [97, 1] (cliPrompt s))).env.out =
      (feed X [97, 1] (cliPrompt s)).env.out ++ cliHome
        ++ (str "Telemetry @ " ++ fmtD (Int.tdiv 1000 s.env.cliTelemetry) ++ str " Hz\r\n\n")
        ++ X.statusText s.env.esc ++ str "\n> " ++ [97, 1] ++ cliClearEOL ∧
    (telemetryFrame X (feed X [97, 1] (cliPrompt s))).cliBuf
      = (feed X [97, 1] (cliPrompt s)).cliBuf ∧
    (telemetryFrame X (feed X [97, 1] (cliPrompt s))).cliBufIndex
      = (feed X [97, 1] (cliPrompt s)).cliBufIndex ∧
    (str "\n> " ++ [97, 1] ++ cliClearEOL).isSuffixOf
      (cliRun demoCollab
        [⟨id, 0, str "telemetry 100\ra" ++ [1]⟩, ⟨id, 10, []⟩]
        (cliInit demoCollab (boot demoEsc), [])).1.env.out = true := by
  have hfeed : feed X [97, 1] (cliPrompt s) =
      { cliPrompt s with
        cliBuf := [97, 1] ++ List.replicate 30 0, cliBufIndex := 1,
        env := serialWrite CLI_BELL (serialWrite 97 (cliPrompt s).env),
        trace := s.trace ++ [Event.store 0, Event.store 1] } := by
    simp only [feed]
    rw [cliCheckByte_printable X 97 (cliPrompt s) 0 (by decide) rfl (by decide)]
    rw [cliCheckByte_reject X 1 _ 1 (by decide) (by decide) (by decide) (by decide) (by decide)
      rfl (by decide)]
    simp [cliPrompt, List.replicate]
  rw [hfeed]
  have hc : cstrAt ([97, 1] ++ List.replicate 30 0) 0 = [97, 1] := by decide
  refine ⟨rfl, rfl, hc, ?_, rfl, rfl, by decide⟩
  rw [telemetryFrame_out]
  simp [frameText, cliPrompt, serialWrite, serialPrint, cstrAt]

/-- Witness of C2: the letter `a` typed right after `cliInit`. -/
theorem C2_line_editor_invariant_witness :
    EditorInv (cliCheckByte demoCollab 97 (cliInit demoCollab (boot demoEsc))).1 :=
  (C2_line_editor_invariant demoCollab demoEsc []).2.2 97
    (cliInit demoCollab (boot demoEsc)) (cliPrompt_inv _)

/-- C11: `beep` gating and boundaries.  With ESC state at most STOPPED and two
scanned fields `freq` and `dur`, `fetBeep(freq, dur)` is called (and nothing
is printed) exactly when `10 <= freq <= 5000` and `1 <= dur <= 1000`; when
`freq` is out of range the frequency message is printed, otherwise when `dur`
is out of range the duration message is printed, and in both cases nothing is
called; with state above STOPPED the handler prints "ESC must be stopped
first" and calls nothing, whatever was scanned. -/
theorem C11_beep_gating (K : Modules) (cmd : cliCommand_t) (fw : Fw) (freq dur : Nat) :
    (fw.env.esc.state ≤ ESC_STATE_STOPPED →
      ((cliFuncBeep K (some (freq, dur)) cmd fw).calls = fw.calls ++ [Call.fetBeep freq dur]
        ↔ (10 ≤ freq ∧ freq ≤ 5000 ∧ 1 ≤ dur ∧ dur ≤ 1000)) ∧
      ((10 ≤ freq ∧ freq ≤ 5000 ∧ 1 ≤ dur ∧ dur ≤ 1000) →
        cliFuncBeep K (some (freq, dur)) cmd fw = fwCall K (Call.fetBeep freq dur) fw) ∧
      (¬ (10 ≤ freq ∧ freq ≤ 5000) →
        cliFuncBeep K (some (freq, dur)) cmd fw
          = fwPrint (str "frequency out of range: 10 => 5000\r\n") fw) ∧
      ((10 ≤ freq ∧ freq ≤ 5000) → ¬ (1 ≤ dur ∧ dur ≤ 1000) →
        cliFuncBeep K (some (freq, dur)) cmd fw
          = fwPrint (str "duration out of range: 1 => 1000\r\n") fw)) ∧
    (fw.env.esc.state > ESC_STATE_STOPPED →
      ∀ scan, cliFuncBeep K scan cmd fw = fwPrint (str "ESC must be stopped first\r\n") fw ∧
        (cliFuncBeep K scan cmd fw).calls = fw.calls) := by
  constructor
  · intro hst
    have hst2 : ¬ fw.env.esc.state > ESC_STATE_STOPPED := by omega
    have hin : (10 ≤ freq ∧ freq ≤ 5000 ∧ 1 ≤ dur ∧ dur ≤ 1000) →
        cliFuncBeep K (some (freq, dur)) cmd fw = fwCall K (Call.fetBeep freq dur) fw := by
      intro h
      have h1 : ¬ (freq < 10 ∨ freq > 5000) := by omega
      have h2 : ¬ (dur < 1 ∨ dur > 1000) := by omega
      simp only [cliFuncBeep, hst2, if_false, h1, h2]
    have hf : ¬ (10 ≤ freq ∧ freq ≤ 5000) →
        cliFuncBeep K (some (freq, dur)) cmd fw
          = fwPrint (str "frequency out of range: 10 => 5000\r\n") fw := by
      intro h
      have h1 : freq < 10 ∨ freq > 5000 := by omega
      simp only [cliFuncBeep, hst2, if_false, h1, if_true]
    have hd : (10 ≤ freq ∧ freq ≤ 5000) → ¬ (1 ≤ dur ∧ dur ≤ 1000) →
        cliFuncBeep K (some (freq, dur)) cmd fw
          = fwPrint (str "duration out of range: 1 => 1000\r\n") fw := by
      intro h h'
      have h1 : ¬ (freq < 10 ∨ freq > 5000) := by omega
      have h2 : dur < 1 ∨ dur > 1000 := by omega
      simp only [cliFuncBeep, hst2, if_false, h1, h2, if_true]
    refine ⟨?_, hin, hf, hd⟩
    constructor
    · intro hc
      by_contra hno
      by_cases hfr : 10 ≤ freq ∧ freq ≤ 5000
      · rw [hd hfr (by omega)] at hc
        simp [fwPrint] at hc
      · rw [hf hfr] at hc
        simp [fwPrint] at hc
    · intro h
      rw [hin h]
      rfl
  · intro hst scan
    have h : cliFuncBeep K scan cmd fw = fwPrint stopError fw := by
      simp only [cliFuncBeep, hst, if_true]
    exact ⟨h, by rw [h]; rfl⟩

/-- Witness of C11: `beep 10 1000` in the state STOPPED, `beep 9 10`, and
`beep 10 10` in the state RUNNING. -/
theorem C11_beep_gating_witness :
    cliFuncBeep demoModules (some (10, 1000)) ⟨str "beep", [], .cliFuncBeep⟩ demoFw
      = fwCall demoModules (Call.fetBeep 10 1000) demoFw ∧
    cliFuncBeep demoModules (some (9, 10)) ⟨str "beep", [], .cliFuncBeep⟩ demoFw
      = fwPrint (str "frequency out of range: 10 => 5000\r\n") demoFw ∧
    cliFuncBeep demoModules (some (10, 10)) ⟨str "beep", [], .cliFuncBeep⟩
        { demoFw with env := { demoFw.env with
            esc := { demoFw.env.esc with state := ESC_STATE_RUNNING } } }
      = fwPrint (str "ESC must be stopped first\r\n")
          { demoFw with env := { demoFw.env with
            esc := { demoFw.env.esc with state := ESC_STATE_RUNNING } } } :=
  ⟨((C11_beep_gating demoModules ⟨str "beep", [], .cliFuncBeep⟩ demoFw 10 1000).1
      (by decide)).2.1 (by decide),
   ((C11_beep_gating demoModules ⟨str "beep", [], .cliFuncBeep⟩ demoFw 9 10).1
      (by decide)).2.2.1 (by decide),
   ((C11_beep_gating demoModules ⟨str "beep", [], .cliFuncBeep⟩
      { demoFw with env := { demoFw.env with
          esc := { demoFw.env.esc with state := ESC_STATE_RUNNING } } } 10 10).2
      (by decide) (some (10, 10))).1⟩

/-- C12: `rpm` gating and effects, the target taken as an exact number.  With
state at least RUNNING, a scanned target `t` and `p[FF1TERM] != 0`: when
`100 <= t <= 10000` the command is accepted, `targetRpm = t` and
`runMode = CLOSED_LOOP_RPM` afterwards, and `runRpmPIDReset` is called exactly
when `runMode` was not `CLOSED_LOOP_RPM` before; otherwise the range message is
printed.  On every rejection (state below RUNNING, nothing scanned,
calibration missing, out of range) only a message is printed: `runMode` and
`targetRpm` are unchanged and nothing is called. -/
theorem C12_rpm_gating (K : Modules) (cmd : cliCommand_t) (fw : Fw) (t : Rat) :
    (ESC_STATE_RUNNING ≤ fw.env.esc.state → K.p_FF1TERM fw.env.esc ≠ 0 →
      ((100 ≤ t ∧ t ≤ 10000) →
        (cliFuncRpm K (some t) cmd fw).targetRpm = t ∧
        (cliFuncRpm K (some t) cmd fw).env.esc.runMode = CLOSED_LOOP_RPM ∧
        (cliFuncRpm K (some t) cmd fw).calls
          = fw.calls ++ (if fw.env.esc.runMode ≠ CLOSED_LOOP_RPM
              then [Call.runRpmPIDReset] else []) ∧
        (cliFuncRpm K (some t) cmd fw).env.out
          = fw.env.out ++ K.fmtF (str "RPM set to %6.0f\r\n") t) ∧
      (¬ (100 ≤ t ∧ t ≤ 10000) →
        cliFuncRpm K (some t) cmd fw = fwPrint (str "RPM out of range: 100 => 10000\r\n") fw)) ∧
    (fw.env.esc.state < ESC_STATE_RUNNING →
      ∀ scan, cliFuncRpm K scan cmd fw = fwPrint (str "ESC not running\r\n") fw) ∧
    (ESC_STATE_RUNNING ≤ fw.env.esc.state →
      cliFuncRpm K none cmd fw = fwUsage cmd fw) ∧
    (ESC_STATE_RUNNING ≤ fw.env.esc.state → K.p_FF1TERM fw.env.esc = 0 →
      cliFuncRpm K (some t) cmd fw = fwPrint (str "Calibration parameters required\r\n") fw) ∧
    (∀ msg, (fwPrint msg fw).targetRpm = fw.targetRpm ∧
      (fwPrint msg fw).env.esc = fw.env.esc ∧ (fwPrint msg fw).calls = fw.calls) ∧
    ((fwUsage cmd fw).targetRpm = fw.targetRpm ∧
      (fwUsage cmd fw).env.esc = fw.env.esc ∧ (fwUsage cmd fw).calls = fw.calls) := by
  refine ⟨?_, ?_, ?_, ?_, fun _ => ⟨rfl, rfl, rfl⟩, ⟨rfl, rfl, rfl⟩⟩
  · intro hst hp
    have hst2 : ¬ fw.env.esc.state < ESC_STATE_RUNNING := by omega
    constructor
    · intro hr
      have h1 : ¬ (t < 100 ∨ t > 10000) := by
        rw [not_or, not_lt, gt_iff_lt, not_lt]
        exact hr
      by_cases hm : fw.env.esc.runMode = CLOSED_LOOP_RPM
      · simp only [cliFuncRpm, hst2, if_false, hp, h1, hm, ne_eq, not_true_eq_false]
        simp [fwPrint, serialPrint, hm]
      · simp only [cliFuncRpm, hst2, if_false, hp, h1, hm, ne_eq, not_false_eq_true, if_true]
        simp [fwPrint, serialPrint, fwCall]
    · intro hr
      have h1 : t < 100 ∨ t > 10000 := by
        by_contra hno
        rw [not_or, not_lt, gt_iff_lt, not_lt] at hno
        exact hr hno
      simp only [cliFuncRpm, hst2, if_false, hp, h1, if_true]
  · intro hst scan
    simp only [cliFuncRpm, hst, if_true]
    rfl
  · intro hst
    have hst2 : ¬ fw.env.esc.state < ESC_STATE_RUNNING := by omega
    simp only [cliFuncRpm, hst2, if_false]
  · intro hst hp
    have hst2 : ¬ fw.env.esc.state < ESC_STATE_RUNNING := by omega
    simp only [cliFuncRpm, hst2, if_false, hp, if_true]

/-- Witness of C12: in the state RUNNING with `p[FF1TERM] = 1`, `rpm 100` is
accepted and `rpm 99` is rejected. -/
theorem C12_rpm_gating_witness :
    (cliFuncRpm demoModules (some 100) ⟨str "rpm", [], .cliFuncRpm⟩
        { demoFw with env := { demoFw.env with
            esc := { demoFw.env.esc with state := ESC_STATE_RUNNING } } }).targetRpm = 100 ∧
    cliFuncRpm demoModules (some 99) ⟨str "rpm", [], .cliFuncRpm⟩
        { demoFw with env := { demoFw.env with
            esc := { demoFw.env.esc with state := ESC_STATE_RUNNING } } }
      = fwPrint (str "RPM out of range: 100 => 10000\r\n")
          { demoFw with env := { demoFw.env with
            esc := { demoFw.env.esc with state := ESC_STATE_RUNNING } } } :=
  ⟨(((C12_rpm_gating demoModules ⟨str "rpm", [], .cliFuncRpm⟩
      { demoFw with env := { demoFw.env with
          esc := { demoFw.env.esc with state := ESC_STATE_RUNNING } } } 100).1
      (by decide) (by decide)).1 (by norm_num)).1,
   ((C12_rpm_gating demoModules ⟨str "rpm", [], .cliFuncRpm⟩
      { demoFw with env := { demoFw.env with
          esc := { demoFw.env.esc with state := ESC_STATE_RUNNING } } } 99).1
      (by decide) (by decide)).2 (by norm_num)⟩

/-! ## The command mode is written by `binary` only -/

theorem fwCall_commandMode (K : Modules)
    (hK : ∀ c esc, (K.effect c esc).commandMode = esc.commandMode) (c : Call) (fw : Fw) :
    (fwCall K c fw).env.esc.commandMode = fw.env.esc.commandMode := hK c fw.env.esc

theorem cliFuncChangeInput_commandMode (i : Nat) (e : Env) :
    (cliFuncChangeInput i e).esc.commandMode = e.esc.commandMode := by
  unfold cliFuncChangeInput
  split <;> rfl

theorem fwChangeInput_commandMode (i : Nat) (fw : Fw) :
    (fwChangeInput i fw).env.esc.commandMode = fw.env.esc.commandMode :=
  cliFuncChangeInput_commandMode i fw.env

theorem cliFuncDisarm_commandMode (X : Collab)
    (hX : ∀ esc, (X.runDisarm esc).commandMode = esc.commandMode) (e : Env) :
    (cliFuncDisarm X e).esc.commandMode = e.esc.commandMode := by
  simp only [cliFuncDisarm]
  show (cliFuncChangeInput ESC_INPUT_UART _).esc.commandMode = _
  rw [cliFuncChangeInput_commandMode]
  exact hX e.esc

theorem fwDisarm_commandMode (X : Collab)
    (hX : ∀ esc, (X.runDisarm esc).commandMode = esc.commandMode) (fw : Fw) :
    (fwDisarm X fw).env.esc.commandMode = fw.env.esc.commandMode :=
  cliFuncDisarm_commandMode X hX fw.env

theorem cliFuncInput_commandMode (X : Collab)
    (hX : ∀ esc, (X.runDisarm esc).commandMode = esc.commandMode)
    (cmd : cliCommand_t) (l : List Nat) (e : Env) :
    (cliFuncInput X cmd l e).esc.commandMode = e.esc.commandMode := by
  unfold cliFuncInput
  split
  · rfl
  · simp only []
    split
    · rw [cliFuncChangeInput_commandMode, cliFuncDisarm_commandMode X hX]
    · rfl

theorem cliFuncTelemetry_commandMode (scan : Option Nat) (cmd : cliCommand_t) (e : Env) :
    (cliFuncTelemetry scan cmd e).esc.commandMode = e.esc.commandMode := by
  unfold cliFuncTelemetry
  split
  · rfl
  · split
    · rfl
    · split <;> rfl

/-- A loop of steps that keep `commandMode` keeps it. -/
theorem foldl_commandMode {α : Type} (f : Fw → α → Fw)
    (hf : ∀ fw a, (f fw a).env.esc.commandMode = fw.env.esc.commandMode) :
    ∀ (l : List α) (fw : Fw), (l.foldl f fw).env.esc.commandMode = fw.env.esc.commandMode
  | [], _ => rfl
  | a :: l, fw => by
    rw [List.foldl_cons, foldl_commandMode f hf l, hf]

theorem cliPrintParam_commandMode (K : Modules) (i : Int) (fw : Fw) :
    (cliPrintParam K i fw).env.esc.commandMode = fw.env.esc.commandMode := rfl

theorem cliFuncArm_commandMode (K : Modules)
    (hK : ∀ c esc, (K.effect c esc).commandMode = esc.commandMode) (fw : Fw) :
    (cliFuncArm K fw).env.esc.commandMode = fw.env.esc.commandMode := by
  unfold cliFuncArm
  split
  · rfl
  · simp only []
    show (fwCall K Call.runArm _).env.esc.commandMode = _
    rw [fwCall_commandMode K hK]
    split
    · exact fwChangeInput_commandMode _ _
    · rfl

theorem cliFuncBeep_commandMode (K : Modules)
    (hK : ∀ c esc, (K.effect c esc).commandMode = esc.commandMode)
    (scan : Option (Nat × Nat)) (cmd : cliCommand_t) (fw : Fw) :
    (cliFuncBeep K scan cmd fw).env.esc.commandMode = fw.env.esc.commandMode := by
  unfold cliFuncBeep
  split
  · rfl
  · split
    · rfl
    · split
      · rfl
      · split
        · rfl
        · exact fwCall_commandMode K hK _ _

theorem cliFuncBoot_commandMode (K : Modules)
    (hK : ∀ c esc, (K.effect c esc).commandMode = esc.commandMode) (fw : Fw) :
    (cliFuncBoot K fw).env.esc.commandMode = fw.env.esc.commandMode := by
  unfold cliFuncBoot
  split
  · rfl
  · show (fwCall K Call.rccReset (fwCall K (Call.timerDelay 0xffff) _)).env.esc.commandMode = _
    rw [fwCall_commandMode K hK, fwCall_commandMode K hK]
    rfl

theorem cliFuncConfig_commandMode (K : Modules)
    (hK : ∀ c esc, (K.effect c esc).commandMode = esc.commandMode)
    (cmd : cliCommand_t) (l : List Nat) (fw : Fw) :
    (cliFuncConfig K cmd l fw).env.esc.commandMode = fw.env.esc.commandMode := by
  unfold cliFuncConfig
  split
  · rfl
  · split
    · rfl
    · split
      · exact fwCall_commandMode K hK _ _
      · split
        · exact fwCall_commandMode K hK _ _
        · split
          · split
            · exact fwCall_commandMode K hK _ _
            · exact fwCall_commandMode K hK _ _
          · rfl

theorem cliFuncDuty_commandMode (K : Modules)
    (hK : ∀ c esc, (K.effect c esc).commandMode = esc.commandMode)
    (scan : Option Rat) (cmd : cliCommand_t) (fw : Fw) :
    (cliFuncDuty K scan cmd fw).env.esc.commandMode = fw.env.esc.commandMode := by
  unfold cliFuncDuty
  split
  · rfl
  · split
    · rfl
    · split
      · exact fwCall_commandMode K hK _ _
      · exact fwCall_commandMode K hK _ _

theorem cliFuncHelp_commandMode (fw : Fw) :
    (cliFuncHelp fw).env.esc.commandMode = fw.env.esc.commandMode := by
  unfold cliFuncHelp
  refine (foldl_commandMode _ ?_ _ _).trans rfl
  intro _ _
  rfl

theorem cliFuncMode_commandMode (X : Collab)
    (hX : ∀ esc, (X.runDisarm esc).commandMode = esc.commandMode)
    (cmd : cliCommand_t) (l : List Nat) (fw : Fw) :
    (cliFuncMode X cmd l fw).env.esc.commandMode = fw.env.esc.commandMode := by
  unfold cliFuncMode
  split
  · rfl
  · simp only []
    split
    · exact fwDisarm_commandMode X hX fw
    · rfl

theorem cliFuncPos_commandMode (K : Modules)
    (hK : ∀ c esc, (K.effect c esc).commandMode = esc.commandMode)
    (scan : Option Rat) (cmd : cliCommand_t) (fw : Fw) :
    (cliFuncPos K scan cmd fw).env.esc.commandMode = fw.env.esc.commandMode := by
  unfold cliFuncPos
  split
  · rfl
  · split
    · rfl
    · split
      · rfl
      · exact fwCall_commandMode K hK _ _

theorem cliFuncPwm_commandMode (K : Modules)
    (hK : ∀ c esc, (K.effect c esc).commandMode = esc.commandMode)
    (scan : Option Nat) (cmd : cliCommand_t) (fw : Fw) :
    (cliFuncPwm K scan cmd fw).env.esc.commandMode = fw.env.esc.commandMode := by
  unfold cliFuncPwm
  split
  · rfl
  · split
    · rfl
    · split
      · rfl
      · simp only []
        show (fwCall K _ _).env.esc.commandMode = _
        rw [fwCall_commandMode K hK]
        split <;> rfl

theorem cliFuncRpm_commandMode (K : Modules)
    (hK : ∀ c esc, (K.effect c esc).commandMode = esc.commandMode)
    (scan : Option Rat) (cmd : cliCommand_t) (fw : Fw) :
    (cliFuncRpm K scan cmd fw).env.esc.commandMode = fw.env.esc.commandMode := by
  unfold cliFuncRpm
  split
  · rfl
  · split
    · rfl
    · split
      · rfl
      · split
        · rfl
        · simp only []
          split
          · exact fwCall_commandMode K hK _ _
          · rfl

theorem cliFuncSet_commandMode (K : Modules)
    (hK : ∀ c esc, (K.effect c esc).commandMode = esc.commandMode)
    (cmd : cliCommand_t) (l : List Nat) (fw : Fw) :
    (cliFuncSet K cmd l fw).env.esc.commandMode = fw.env.esc.commandMode := by
  unfold cliFuncSet
  split
  · rfl
  · split
    · refine foldl_commandMode _ ?_ _ _
      intro _ _
      rfl
    · simp only []
      split
      · rfl
      · split
        · split
          · rfl
          · exact fwCall_commandMode K hK _ _
        · rfl

theorem cliFuncStart_commandMode (K : Modules)
    (hK : ∀ c esc, (K.effect c esc).commandMode = esc.commandMode) (fw : Fw) :
    (cliFuncStart K fw).env.esc.commandMode = fw.env.esc.commandMode := by
  unfold cliFuncStart
  split
  · rfl
  · split
    · rfl
    · exact fwCall_commandMode K hK _ _

theorem cliFuncStop_commandMode (K : Modules)
    (hK : ∀ c esc, (K.effect c esc).commandMode = esc.commandMode) (fw : Fw) :
    (cliFuncStop K fw).env.esc.commandMode = fw.env.esc.commandMode := by
  unfold cliFuncStop
  split
  · rfl
  · show (fwChangeInput ESC_INPUT_UART (fwCall K Call.runStop fw)).env.esc.commandMode = _
    rw [fwChangeInput_commandMode, fwCall_commandMode K hK]

/-- C13: CommandMode frame property.  When the calls into the other modules
do not write `commandMode`, every handler of the table other than `binary`
and `bootloader` leaves `commandMode` as it was, for every state and argument
tail; `binary` sets it to `BINARY_MODE` when the state is at most STOPPED and
leaves it unchanged otherwise. -/
theorem C13_commandMode_frame (X : Collab) (K : Modules)
    (hX : ∀ esc, (X.runDisarm esc).commandMode = esc.commandMode)
    (hK : ∀ c esc, (K.effect c esc).commandMode = esc.commandMode)
    (cmd : cliCommand_t) (cmdLine : List Nat) (fw : Fw) :
    (cmd.cmdFunc ≠ CmdFunc.cliFuncBinary → cmd.cmdFunc ≠ CmdFunc.cliFuncBoot →
      (cmdFuncAll X K cmd cmdLine fw).env.esc.commandMode = fw.env.esc.commandMode) ∧
    (cmd.cmdFunc = CmdFunc.cliFuncBinary →
      (fw.env.esc.state ≤ ESC_STATE_STOPPED →
        (cmdFuncAll X K cmd cmdLine fw).env.esc.commandMode = BINARY_MODE) ∧
      (fw.env.esc.state > ESC_STATE_STOPPED →
        (cmdFuncAll X K cmd cmdLine fw).env.esc.commandMode = fw.env.esc.commandMode)) := by
  constructor
  · intro hb hboot
    unfold cmdFuncAll
    split
    · exact cliFuncArm_commandMode K hK fw
    · exact cliFuncBeep_commandMode K hK _ cmd fw
    · rename_i h
      exact absurd h hb
    · rename_i h
      exact absurd h hboot
    · exact cliFuncConfig_commandMode K hK cmd cmdLine fw
    · exact fwDisarm_commandMode X hX fw
    · exact cliFuncDuty_commandMode K hK _ cmd fw
    · exact cliFuncHelp_commandMode fw
    · exact cliFuncInput_commandMode X hX cmd cmdLine fw.env
    · exact cliFuncMode_commandMode X hX cmd cmdLine fw
    · exact cliFuncPos_commandMode K hK _ cmd fw
    · exact cliFuncPwm_commandMode K hK _ cmd fw
    · exact cliFuncRpm_commandMode K hK _ cmd fw
    · exact cliFuncSet_commandMode K hK cmd cmdLine fw
    · exact cliFuncStart_commandMode K hK fw
    · rfl
    · exact cliFuncStop_commandMode K hK fw
    · exact cliFuncTelemetry_commandMode _ cmd fw.env
    · rfl
  · intro hb
    simp only [cmdFuncAll, hb, cliFuncBinary]
    constructor
    · intro hst
      have h : ¬ fw.env.esc.state > ESC_STATE_STOPPED := by omega
      simp only [h, if_false]
    · intro hst
      simp only [hst, if_true]
      rfl

/-- Witness of C13: `help` and `binary` in the state DISARMED. -/
theorem C13_commandMode_frame_witness :
    (cmdFuncAll demoCollab demoModules ⟨str "help", str "", .cliFuncHelp⟩ (str "\r")
        demoFw).env.esc.commandMode = demoFw.env.esc.commandMode ∧
    (cmdFuncAll demoCollab demoModules ⟨str "binary", str "", .cliFuncBinary⟩ (str "\r")
        demoFw).env.esc.commandMode = BINARY_MODE :=
  ⟨(C13_commandMode_frame demoCollab demoModules (fun _ => rfl) (fun _ _ => rfl)
      ⟨str "help", str "", .cliFuncHelp⟩ (str "\r") demoFw).1 (by decide) (by decide),
   ((C13_commandMode_frame demoCollab demoModules (fun _ => rfl) (fun _ _ => rfl)
      ⟨str "binary", str "", .cliFuncBinary⟩ (str "\r") demoFw).2 rfl).1 (by decide)⟩

/-! ## Empty lines and the buffer reset -/

/-- CR or LF typed at an empty buffer: only the prompt is printed. -/
theorem cliCheckByte_empty_eol (X : Collab) (t : Nat) (s : Cli) (ht : t = 10 ∨ t = 13)
    (hidx : s.cliBufIndex = 0) :
    cliCheckByte X t s =
      (cliPrompt { s with cliBuf := bufStore s.cliBuf 0 t, cliBufIndex := 1,
                          trace := s.trace ++ [Event.store 0] }, false) := by
  have hmod : t % 256 = t := by rcases ht with h | h <;> subst h <;> rfl
  have h1 : ¬ ((0 : Int) + 1 = 32) := by decide
  have h2 : ¬ ((0 : Int) + 1 = 0) := by decide
  have h3 : ¬ ((0 : Int) + 1 > 1) := by decide
  simp only [cliCheckByte, hidx, hmod, h1, decide_False, Bool.false_eq_true, if_false, ne_eq,
    h2, not_false_eq_true, ht, and_self, if_true, h3]
  rfl

/-- C15: on an empty input buffer a single CR or LF performs no command
lookup and calls no handler; the only output is the prompt (so no "Command
not found"), and the buffer is left empty: `cliBufIndex = 0` and all 32 cells
zero. -/
theorem C15_empty_line_reprompts (X : Collab) (s : Cli) (t : Nat)
    (ht : t = 10 ∨ t = 13) (hempty : s.cliBufIndex = 0) :
    (cliCheckByte X t s).2 = false ∧
    (cliCheckByte X t s).1.env = { s.env with out := s.env.out ++ str "\r\n> " } ∧
    (cliCheckByte X t s).1.cliBufIndex = 0 ∧
    (cliCheckByte X t s).1.cliBuf = List.replicate 32 0 ∧
    lookups (cliCheckByte X t s).1.trace = lookups s.trace ∧
    calls (cliCheckByte X t s).1.trace = calls s.trace := by
  rw [cliCheckByte_empty_eol X t s ht hempty]
  simp [cliPrompt, serialPrint, lookups_append, calls_append, lookups_store, calls_store,
    lookups_nil, calls_nil]

/-- Witness of C15: a CR right after `cliInit`. -/
theorem C15_empty_line_reprompts_witness :
    (cliCheckByte demoCollab 13 (cliInit demoCollab (boot demoEsc))).2 = false ∧
    (cliCheckByte demoCollab 13 (cliInit demoCollab (boot demoEsc))).1.env
      = { (cliInit demoCollab (boot demoEsc)).env with
          out := (cliInit demoCollab (boot demoEsc)).env.out ++ str "\r\n> " } ∧
    (cliCheckByte demoCollab 13 (cliInit demoCollab (boot demoEsc))).1.cliBufIndex = 0 ∧
    (cliCheckByte demoCollab 13 (cliInit demoCollab (boot demoEsc))).1.cliBuf
      = List.replicate 32 0 ∧
    lookups (cliCheckByte demoCollab 13 (cliInit demoCollab (boot demoEsc))).1.trace
      = lookups (cliInit demoCollab (boot demoEsc)).trace ∧
    calls (cliCheckByte demoCollab 13 (cliInit demoCollab (boot demoEsc))).1.trace
      = calls (cliInit demoCollab (boot demoEsc)).trace :=
  C15_empty_line_reprompts demoCollab (cliInit demoCollab (boot demoEsc)) 13
    (Or.inr rfl) rfl

/-- After the submission branch the cursor is 0, and the buffer is cleared
when the command mode is still `CLI_MODE`. -/
theorem cliSubmit_reset (X : Collab) (s : Cli) :
    (cliSubmit X s).1.cliBufIndex = 0 ∧
    ((cliSubmit X s).1.env.esc.commandMode = CLI_MODE →
      (cliSubmit X s).1.cliBuf = List.replicate 32 0) := by
  unfold cliSubmit
  simp only []
  split
  · rename_i h
    exact ⟨rfl, fun h2 => absurd h2 h⟩
  · exact ⟨rfl, fun _ => rfl⟩

/-- The three ways a turn of the loop ends: in the submission branch, with a
prompt, or without any lookup (and then the byte is not the interrupt byte). -/
theorem cliCheckByte_cases (X : Collab) (c : Nat) (s : Cli) :
    (∃ s1, cliCheckByte X c s = cliSubmit X s1) ∨
    (∃ s1, cliCheckByte X c s = (cliPrompt s1, false)) ∨
    (lookups (cliCheckByte X c s).1.trace = lookups s.trace ∧ c % 256 ≠ CLI_INTR) := by
  by_cases hfull : s.cliBufIndex + 1 = 32
  · left
    have h1 : (1 : Int) < 32 - 1 := by decide
    have h2 : ¬ ((32 : Int) - 1 = 0) := by decide
    simp only [cliCheckByte, hfull, decide_True, if_true, ne_eq, h2, not_false_eq_true, true_or,
      and_self, gt_iff_lt, h1]
    exact ⟨_, rfl⟩
  · simp only [cliCheckByte, hfull, decide_False, Bool.false_eq_true, if_false]
    split
    · split
      · exact Or.inl ⟨_, rfl⟩
      · exact Or.inr (Or.inl ⟨_, rfl⟩)
    · split
      · exact Or.inr (Or.inl ⟨_, rfl⟩)
      · rename_i hintr
        right
        right
        refine ⟨?_, hintr⟩
        split
        · split <;>
            simp [lookups_append, lookups_store, lookups_nil]
        · split <;>
            simp [lookups_append, lookups_store, lookups_nil]

/-- C14 (amended): buffer reset.  After every turn of the loop that submits a
line (any lookup recorded: a CR/LF-terminated line or an overflow, whatever
command it names) and after every interrupt byte, `cliBufIndex = 0`; and all
32 cells of `cliBuf` are zero provided the command mode is `CLI_MODE`
afterwards. -/
theorem C14_buffer_reset (X : Collab) (c : Nat) (s : Cli)
    (h : lookups (cliCheckByte X c s).1.trace ≠ lookups s.trace ∨ c % 256 = CLI_INTR) :
    (cliCheckByte X c s).1.cliBufIndex = 0 ∧
    ((cliCheckByte X c s).1.env.esc.commandMode = CLI_MODE →
      (cliCheckByte X c s).1.cliBuf = List.replicate 32 0) := by
  rcases cliCheckByte_cases X c s with ⟨s1, h1⟩ | ⟨s1, h1⟩ | ⟨h1, h2⟩
  · rw [h1]
    exact cliSubmit_reset X s1
  · rw [h1]
    exact ⟨rfl, fun _ => rfl⟩
  · rcases h with h | h
    · exact absurd h1 h
    · exact absurd h h2

set_option maxRecDepth 100000 in
/-- Witness of C14 (amended): `help` and CR typed after `cliInit`. -/
theorem C14_buffer_reset_witness :
    (cliCheckByte demoCollab 13
        (feed demoCollab (str "help") (cliInit demoCollab (boot demoEsc)))).1.cliBufIndex = 0 ∧
    ((cliCheckByte demoCollab 13
        (feed demoCollab (str "help") (cliInit demoCollab (boot demoEsc)))).1.env.esc.commandMode
        = CLI_MODE →
      (cliCheckByte demoCollab 13
        (feed demoCollab (str "help") (cliInit demoCollab (boot demoEsc)))).1.cliBuf
        = List.replicate 32 0) :=
  C14_buffer_reset demoCollab 13
    (feed demoCollab (str "help") (cliInit demoCollab (boot demoEsc))) (Or.inl (by decide))

set_option maxRecDepth 100000 in
/-- C14, the claim as stated fails: after the submission of `binary` (state
DISARMED) the command mode is `BINARY_MODE`, `cliCheck` returns without the
prompt, and `cliBuf` still holds the submitted line. -/
theorem C14_counterexample :
    lookups (feed demoCollab (str "binary\r") (cliInit demoCollab (boot demoEsc))).trace
      = [str "binary\r"] ∧
    (feed demoCollab (str "binary\r") (cliInit demoCollab (boot demoEsc))).cliBufIndex = 0 ∧
    (feed demoCollab (str "binary\r") (cliInit demoCollab (boot demoEsc))).cliBuf
      = str "binary\r" ++ List.replicate 25 0 ∧
    (feed demoCollab (str "binary\r") (cliInit demoCollab (boot demoEsc))).cliBuf
      ≠ List.replicate 32 0 := by
  decide

/-! ## Backspace -/

/-- Backspace typed while `p ++ [x]` is stored (at most 30 bytes): the cell of
`x` is set to NUL, the line is repainted from the C string in `cliBuf`, which
is `p`, and the cursor goes back by one; the backspace byte stays in the cell
behind. -/
theorem cliCheckByte_bs (X : Collab) (s : Cli) (p : List Nat) (x : Nat) (r : List Nat)
    (hbuf : s.cliBuf = p ++ x :: r) (hlen : (p ++ x :: r).length = 32)
    (hidx : s.cliBufIndex = ((p.length + 1 : Nat) : Int)) (h30 : p.length + 1 ≤ 30)
    (hnz : ∀ b ∈ p, b ≠ 0) :
    cliCheckByte X CLI_BS s =
      ({ s with cliBuf := p ++ 0 :: CLI_BS :: r.tail,
                cliBufIndex := (p.length : Int),
                env := { s.env with
                  out := s.env.out ++ str "\r> " ++ p ++ [32] ++ str "\r> " ++ p },
                trace := s.trace ++ [Event.store ((p.length + 1 : Nat) : Int),
                                     Event.store (p.length : Int)] }, false) := by
  simp only [List.length_append, List.length_cons] at hlen
  obtain ⟨y, r2, hr⟩ : ∃ y r2, r = y :: r2 := by
    match r, hlen with
    | [], h => simp at h; omega
    | y :: r2, _ => exact ⟨y, r2, rfl⟩
  subst hr
  have hmod : CLI_BS % 256 = CLI_BS := rfl
  have h32 : ¬ (((p.length + 1 : Nat) : Int) + 1 = 32) := by omega
  have h0 : ¬ (((p.length + 1 : Nat) : Int) + 1 = 0) := by omega
  have hgt : ((p.length + 1 : Nat) : Int) + 1 > 1 := by omega
  have hm2 : ((p.length + 1 : Nat) : Int) + 1 - 2 = ((p.length : Nat) : Int) := by omega
  have hbs10 : ¬ CLI_BS = 10 := by decide
  have hbs13 : ¬ CLI_BS = 13 := by decide
  have hbs3 : ¬ CLI_BS = CLI_INTR := by decide
  have hb1 : bufStore (p ++ x :: y :: r2) ((p.length + 1 : Nat) : Int) CLI_BS
      = p ++ x :: CLI_BS :: r2 := by
    rw [bufStore_ofNat, List.set_append_right _ _ (by omega)]
    simp
  have hb2 : bufStore (p ++ x :: CLI_BS :: r2) ((p.length : Nat) : Int) 0
      = p ++ 0 :: CLI_BS :: r2 := by
    rw [bufStore_ofNat, List.set_append_right _ _ (by omega)]
    simp
  have hc : cstrAt (p ++ 0 :: CLI_BS :: r2) 0 = p := cstrAt_zero_of_eq p _ hnz
  simp only [cliCheckByte, hidx, hbuf, hmod, h32, decide_False, Bool.false_eq_true, if_false,
    ne_eq, h0, not_false_eq_true, hbs10, hbs13, or_self, and_false, hbs3, if_true, hgt, hm2,
    hb1, hb2, hc, serialPrint, serialWrite, List.tail_cons, List.append_assoc]
  rfl

/-- Backspace typed at an empty buffer: the cursor stays at 0 and nothing is
printed. -/
theorem cliCheckByte_bs_empty (X : Collab) (s : Cli) (hidx : s.cliBufIndex = 0) :
    cliCheckByte X CLI_BS s =
      ({ s with cliBuf := bufStore s.cliBuf 0 CLI_BS, cliBufIndex := 0,
                trace := s.trace ++ [Event.store 0] }, false) := by
  have hmod : CLI_BS % 256 = CLI_BS := rfl
  have h1 : ¬ ((0 : Int) + 1 = 32) := by decide
  have h2 : ¬ ((0 : Int) + 1 = 0) := by decide
  have h3 : ¬ ((0 : Int) + 1 > 1) := by decide
  have hbs10 : ¬ CLI_BS = 10 := by decide
  have hbs13 : ¬ CLI_BS = 13 := by decide
  have hbs3 : ¬ CLI_BS = CLI_INTR := by decide
  simp only [cliCheckByte, hidx, hmod, h1, decide_False, Bool.false_eq_true, if_false, ne_eq,
    h2, not_false_eq_true, hbs10, hbs13, or_self, and_false, hbs3, if_true, h3]
  rfl

/-- C18: backspace.  For every buffer holding `n` printable bytes `w` with
`1 <= n <= 30`, the byte `CLI_BS` leaves `cliBufIndex = n - 1` with the first
`n - 1` bytes unchanged and prints exactly `"\r> "`, the prefix, a blank,
`"\r> "` and the prefix again, where the prefix is those `n - 1` bytes; no
line is looked up.  On an empty buffer `CLI_BS` leaves `cliBufIndex = 0` and
prints nothing. -/
theorem C18_backspace (X : Collab) (s : Cli) (w r : List Nat)
    (hbuf : s.cliBuf = w ++ r) (hlen : (w ++ r).length = 32)
    (hidx : s.cliBufIndex = (w.length : Int)) (h1 : 1 ≤ w.length) (h30 : w.length ≤ 30)
    (hw : ∀ b ∈ w, printable b) :
    ((cliCheckByte X CLI_BS s).2 = false ∧
      (cliCheckByte X CLI_BS s).1.cliBufIndex = (w.length : Int) - 1 ∧
      (cliCheckByte X CLI_BS s).1.cliBuf.take (w.length - 1) = w.take (w.length - 1) ∧
      (cliCheckByte X CLI_BS s).1.env =
        { s.env with
          out := s.env.out ++ str "\r> " ++ w.take (w.length - 1) ++ [32] ++ str "\r> "
            ++ w.take (w.length - 1) } ∧
      lookups (cliCheckByte X CLI_BS s).1.trace = lookups s.trace) ∧
    (∀ s0 : Cli, s0.cliBufIndex = 0 →
      (cliCheckByte X CLI_BS s0).2 = false ∧
      (cliCheckByte X CLI_BS s0).1.cliBufIndex = 0 ∧
      (cliCheckByte X CLI_BS s0).1.env = s0.env) := by
  constructor
  · obtain ⟨p, x, hpx⟩ : ∃ p x, w = p ++ [x] := by
      rcases List.eq_nil_or_concat w with h | ⟨p, x, h⟩
      · subst h
        simp at h1
      · exact ⟨p, x, by rw [h, List.concat_eq_append]⟩
    subst hpx
    simp only [List.length_append, List.length_singleton] at hidx h30 hlen ⊢
    have hnz : ∀ b ∈ p, b ≠ 0 := fun b hb => printable_ne_zero (hw b (by simp [hb]))
    rw [cliCheckByte_bs X s p x r (by simpa using hbuf) (by simp; omega)
      (by simpa using hidx) h30 hnz]
    simp [lookups_append, lookups_store, lookups_nil]
  · intro s0 h0
    rw [cliCheckByte_bs_empty X s0 h0]
    exact ⟨rfl, rfl, rfl⟩

set_option maxRecDepth 100000 in
/-- Witness of C18: backspace after `ab` typed at the prompt. -/
theorem C18_backspace_witness :
    (cliCheckByte demoCollab CLI_BS
        (feed demoCollab (str "ab") (cliPrompt (boot demoEsc)))).1.cliBufIndex = 1 ∧
    (cliCheckByte demoCollab CLI_BS
        (feed demoCollab (str "ab") (cliPrompt (boot demoEsc)))).1.env.out
      = (feed demoCollab (str "ab") (cliPrompt (boot demoEsc))).env.out
          ++ str "\r> a \r> a" := by
  have h := (C18_backspace demoCollab (feed demoCollab (str "ab") (cliPrompt (boot demoEsc)))
    (str "ab") (List.replicate 30 0) (by decide) (by decide) (by decide) (by decide)
    (by decide) (by decide)).1
  refine ⟨h.2.1, ?_⟩
  rw [h.2.2.2.1]
  decide

/-! ## Buffer-access safety -/

theorem cliDispatch_store (X : Collab) (s : Cli) (i : Int) :
    Event.store i ∈ (cliDispatch X s).trace ↔ Event.store i ∈ s.trace := by
  unfold cliDispatch
  simp only []
  split <;> simp

theorem replicate_getD_31 : (List.replicate 32 0).getD 31 0 = 0 := by decide

/-- The submission branch keeps the NUL in the last cell and the bound on the
recorded indices, when the terminator is written within the buffer. -/
theorem cliSubmit_safe (X : Collab) (s : Cli)
    (h0 : 0 ≤ s.cliBufIndex) (h31 : s.cliBufIndex ≤ 31) (hlen : s.cliBuf.length = 32)
    (hlast : s.cliBufIndex = 31 ∨ s.cliBuf.getD 31 0 = 0)
    (htr : ∀ i : Int, Event.store i ∈ s.trace → 0 ≤ i ∧ i ≤ 31) :
    (cliSubmit X s).1.cliBuf.getD 31 0 = 0 ∧
      ∀ i : Int, Event.store i ∈ (cliSubmit X s).1.trace → 0 ≤ i ∧ i ≤ 31 := by
  have hb : (bufStore s.cliBuf s.cliBufIndex 0).getD 31 0 = 0 := by
    by_cases h : s.cliBufIndex = 31
    · have : s.cliBufIndex = ((31 : Nat) : Int) := by omega
      rw [this]
      exact bufStore_getD_eq _ 31 0 (by omega)
    · rw [bufStore_getD_ne _ _ _ _ (by omega)]
      rcases hlast with h' | h'
      · exact absurd h' h
      · exact h'
  have ht : ∀ i : Int, Event.store i ∈ (cliDispatch X { s with
        env := s.env |> serialPrint (str "\r\n") |> serialPrint cliClearEOS,
        cliBuf := bufStore s.cliBuf s.cliBufIndex 0,
        trace := s.trace ++ [Event.store s.cliBufIndex] }).trace → 0 ≤ i ∧ i ≤ 31 := by
    intro i hi
    rw [cliDispatch_store] at hi
    simp only [List.mem_append, List.mem_singleton, Event.store.injEq] at hi
    rcases hi with hi | hi
    · exact htr i hi
    · subst hi
      exact ⟨h0, h31⟩
  unfold cliSubmit
  simp only []
  split
  · refine ⟨?_, ht⟩
    simp only [cliDispatch_cliBuf]
    exact hb
  · exact ⟨replicate_getD_31, ht⟩

theorem cliCheckByte_safe (X : Collab) (c : Nat) (s : Cli) (h : SafeInv s) :
    SafeInv (cliCheckByte X c s).1 := by
  obtain ⟨hinv, hlast, htr⟩ := h
  refine ⟨cliCheckByte_inv X c s hinv, ?_⟩
  obtain ⟨hlen, h0, h31, _⟩ := hinv
  have htr1 : ∀ i : Int, Event.store i ∈ s.trace ++ [Event.store s.cliBufIndex] →
      0 ≤ i ∧ i ≤ 31 := by
    intro i hi
    simp only [List.mem_append, List.mem_singleton, Event.store.injEq] at hi
    rcases hi with hi | hi
    · exact htr i hi
    · subst hi
      exact ⟨h0, h31⟩
  by_cases hfull : s.cliBufIndex + 1 = 32
  · have h1 : (1 : Int) < 32 - 1 := by decide
    have h2 : ¬ ((32 : Int) - 1 = 0) := by decide
    simp only [cliCheckByte, hfull, decide_True, if_true, ne_eq, h2, not_false_eq_true, true_or,
      and_self, gt_iff_lt, h1]
    have e1 : (0 : Int) ≤ 32 - 1 := by decide
    have e2 : (32 : Int) - 1 ≤ 31 := by decide
    have e3 : (32 : Int) - 1 = 31 := by decide
    exact cliSubmit_safe X _ e1 e2 (by simp [bufStore_length, hlen]) (Or.inl e3) htr1
  · have hstore : (bufStore s.cliBuf s.cliBufIndex (c % 256)).getD 31 0 = 0 := by
      rw [bufStore_getD_ne _ _ _ _ (by omega)]
      exact hlast
    simp only [cliCheckByte, hfull, decide_False, Bool.false_eq_true, if_false]
    split
    · split
      · exact cliSubmit_safe X _ (by simp; omega) (by simp; omega)
          (by simp [bufStore_length, hlen]) (Or.inr hstore) htr1
      · exact ⟨replicate_getD_31, htr1⟩
    · split
      · exact ⟨replicate_getD_31, htr1⟩
      · split
        · split
          · rename_i hgt
            refine ⟨?_, ?_⟩
            · show (bufStore _ (s.cliBufIndex + 1 - 2) 0).getD 31 0 = 0
              rw [bufStore_getD_ne _ _ _ _ (by omega)]
              exact hstore
            · intro i hi
              simp only [List.mem_append, List.mem_singleton, Event.store.injEq] at hi
              rcases hi with hi | hi
              · exact htr1 i (by simpa using hi)
              · subst hi
                omega
          · exact ⟨hstore, htr1⟩
        · split
          · exact ⟨hstore, htr1⟩
          · exact ⟨hstore, htr1⟩

theorem cliCheckTelemetry_safe (X : Collab) (rm : Nat) (s : Cli) (h : SafeInv s) :
    SafeInv (cliCheckTelemetry X rm s) := by
  obtain ⟨hinv, hlast, htr⟩ := h
  refine ⟨cliCheckTelemetry_inv X rm s hinv, ?_, ?_⟩
  · rw [(cliCheckTelemetry_cliBuf X rm s).1]
    exact hlast
  · intro i hi
    apply htr i
    unfold cliCheckTelemetry at hi
    split at hi
    · simp only [] at hi
      split at hi
      · simpa [telemetryFrame] using hi
      · simpa using hi
    · exact hi

/-- A C string read from a buffer with a NUL in cell `k` has at most `k`
bytes. -/
theorem takeWhile_length_le : ∀ (buf : List Nat) (k : Nat), k < buf.length →
    buf.getD k 0 = 0 → (buf.takeWhile (fun c => decide (c ≠ 0))).length ≤ k
  | [], k, h, _ => by simp at h
  | x :: xs, 0, _, h0 => by
    simp only [List.getD_cons_zero] at h0
    subst h0
    simp
  | x :: xs, k + 1, h, h0 => by
    simp only [List.getD_cons_succ] at h0
    have := takeWhile_length_le xs k (by simpa using h) h0
    rw [List.takeWhile_cons]
    split
    · simp only [List.length_cons]
      omega
    · simp

theorem cstrAt_length_le (buf : List Nat) (hlen : buf.length = 32) (hlast : buf.getD 31 0 = 0) :
    (cstrAt buf 0).length ≤ 31 := by
  unfold cstrAt
  rw [List.drop_zero]
  exact takeWhile_length_le buf 31 (by omega) hlast

/-- Along every run from `cliInit` the safety invariant holds. -/
theorem cliRun_safe (X : Collab) (esc : Esc) (polls : List Poll) :
    SafeInv (cliRun X polls (cliInit X (boot esc), [])).1 :=
  cliRun_induction X SafeInv (fun _ _ h => h) (cliCheckTelemetry_safe X)
    (cliCheckByte_safe X) polls _
    ⟨cliPrompt_inv _, replicate_getD_31, by simp [cliInit, cliPrompt, boot]⟩

/-- In a state that satisfies the editor invariant with 1 .. 30 bytes stored,
the backspace repaint prints the stored bytes but the last. -/
theorem cliCheckByte_bs_of_inv (X : Collab) (s : Cli) (k : Nat) (hinv : EditorInv s)
    (hidx : s.cliBufIndex = ((k + 1 : Nat) : Int)) (h30 : k + 1 ≤ 30) :
    (cliCheckByte X CLI_BS s).1.env.out =
      s.env.out ++ str "\r> " ++ s.cliBuf.take k ++ [32] ++ str "\r> " ++ s.cliBuf.take k := by
  obtain ⟨hlen, _, _, hpr⟩ := hinv
  have hk : k < s.cliBuf.length := by omega
  have hsplit : s.cliBuf = s.cliBuf.take k ++ s.cliBuf[k] :: s.cliBuf.drop (k + 1) := by
    rw [List.getElem_cons_drop _ _ hk, List.take_append_drop]
  have hnz : ∀ b ∈ s.cliBuf.take k, b ≠ 0 := by
    intro b hb
    obtain ⟨i, hi, rfl⟩ := List.mem_iff_getElem.1 hb
    have hik : i < k := by
      simp only [List.length_take] at hi
      omega
    have := hpr i (by omega)
    rw [List.getElem_take]
    have hget : s.cliBuf.getD i 0 = s.cliBuf[i] := by
      simp [List.getD_eq_getElem?_getD, List.getElem?_eq_getElem (by omega : i < s.cliBuf.length)]
    rw [hget] at this
    exact printable_ne_zero this
  have htk : (s.cliBuf.take k).length = k := by
    simp only [List.length_take]
    omega
  rw [cliCheckByte_bs X s (s.cliBuf.take k) s.cliBuf[k] (s.cliBuf.drop (k + 1)) hsplit
    (by rw [← hsplit]; exact hlen) (by rw [htk]; exact hidx) (by rw [htk]; exact h30) hnz]

/-- C20: buffer-access safety of the line editor.  Along every run from
`cliInit`, whatever the bytes, every recorded assignment to `cliBuf` (the
append at `cliBufIndex`, the terminator at `cliBufIndex`, the backspace write
at `cliBufIndex - 2`) has its index within 0 .. 31; between bytes `cliBuf` has
32 cells with `cliBuf[31] = 0`, so the C string printed by a telemetry frame
ends within the buffer; the string printed by a backspace repaint is the
stored bytes but the last, at most 29 of them; and every turn of the loop
keeps the invariant. -/
theorem C20_buffer_access_safety (X : Collab) (esc : Esc) (polls : List Poll) :
    (∀ i : Int, Event.store i ∈ (cliRun X polls (cliInit X (boot esc), [])).1.trace →
      0 ≤ i ∧ i ≤ 31) ∧
    (cliRun X polls (cliInit X (boot esc), [])).1.cliBuf.length = 32 ∧
    (cliRun X polls (cliInit X (boot esc), [])).1.cliBuf.getD 31 0 = 0 ∧
    (cstrAt (cliRun X polls (cliInit X (boot esc), [])).1.cliBuf 0).length ≤ 31 ∧
    (∀ k : Nat, (cliRun X polls (cliInit X (boot esc), [])).1.cliBufIndex = ((k + 1 : Nat) : Int) →
      k + 1 ≤ 30 →
      (cliCheckByte X CLI_BS (cliRun X polls (cliInit X (boot esc), [])).1).1.env.out =
        (cliRun X polls (cliInit X (boot esc), [])).1.env.out ++ str "\r> "
          ++ (cliRun X polls (cliInit X (boot esc), [])).1.cliBuf.take k ++ [32] ++ str "\r> "
          ++ (cliRun X polls (cliInit X (boot esc), [])).1.cliBuf.take k) ∧
    (∀ (byte : Nat) (s : Cli), SafeInv s → SafeInv (cliCheckByte X byte s).1) := by
  have h := cliRun_safe X esc polls
  exact ⟨h.2.2, h.1.1, h.2.1, cstrAt_length_le _ h.1.1 h.2.1,
    fun k hk h30 => cliCheckByte_bs_of_inv X _ k h.1 hk h30, cliCheckByte_safe X⟩

set_option maxRecDepth 100000 in
/-- Witness of C20: the letter `a` typed right after `cliInit`. -/
theorem C20_buffer_access_safety_witness :
    SafeInv (cliCheckByte demoCollab 97 (cliInit demoCollab (boot demoEsc))).1 :=
  (C20_buffer_access_safety demoCollab demoEsc []).2.2.2.2.2 97
    (cliInit demoCollab (boot demoEsc)) (cliRun_safe demoCollab demoEsc [])

/-! ## The input-mode guard and the telemetry header -/

set_option maxRecDepth 100000 in
/-- C16: input-mode change guard.  `cliFuncChangeInput(m)` prints the line
"Input mode set to" with the name of `m` when `inputMode != m` before, prints
nothing and changes nothing when `inputMode = m`, and in every case
`inputMode = m` afterwards.  Hence the `input` command with the argument
`UART`, run when `inputMode` is already UART and with a `runDisarm` that does
not alter `inputMode`, prints only "ESC disarmed" (no "Input mode set to"
line) and leaves `inputMode = UART`. -/
theorem C16_change_input_guard (X : Collab) (cmd : cliCommand_t) (m : Nat) (e : Env) :
    (cliFuncChangeInput m e).esc.inputMode = m ∧
    (e.esc.inputMode ≠ m →
      (cliFuncChangeInput m e).out
        = e.out ++ (str "Input mode set to " ++ cliInputModes.getD m [] ++ str "\r\n")) ∧
    (e.esc.inputMode = m → cliFuncChangeInput m e = e) ∧
    ((∀ esc, (X.runDisarm esc).inputMode = esc.inputMode) →
      e.esc.inputMode = ESC_INPUT_UART →
      (cliFuncInput X cmd (str " UART\r") e).out = e.out ++ str "ESC disarmed\r\n" ∧
      (cliFuncInput X cmd (str " UART\r") e).esc.inputMode = ESC_INPUT_UART) := by
  refine ⟨cliFuncChangeInput_inputMode m e, ?_, ?_, ?_⟩
  · intro h
    unfold cliFuncChangeInput
    rw [if_pos h]
    rfl
  · intro h
    unfold cliFuncChangeInput
    rw [if_neg (by simpa using h)]
  · intro hX he
    have hscan : sscanf_s 7 (str " UART\r") = some (str "UART") := by decide
    have hidx :
        cliInputModes.findIdx (fun m => decide (strncasecmp m (str "UART") 3 = 0)) = 1 := by
      decide
    have hlen : cliInputModes.length = 5 := rfl
    have h15 : (1 : Nat) < 5 := by decide
    have hd : cliFuncDisarm X e =
        serialPrint (str "ESC disarmed\r\n") { e with esc := X.runDisarm e.esc } := by
      simp only [cliFuncDisarm]
      unfold cliFuncChangeInput
      rw [if_neg]
      simp only [ne_eq, Decidable.not_not]
      rw [hX, he]
    have hd1 : (cliFuncDisarm X e).esc.inputMode = 1 := cliFuncDisarm_inputMode X e
    have h1 : cliFuncInput X cmd (str " UART\r") e = cliFuncDisarm X e := by
      simp only [cliFuncInput, hscan, hidx, hlen, h15, if_true]
      unfold cliFuncChangeInput
      rw [if_neg]
      simp only [ne_eq, Decidable.not_not]
      exact hd1
    rw [h1]
    refine ⟨?_, cliFuncDisarm_inputMode X e⟩
    rw [hd]
    rfl

set_option maxRecDepth 100000 in
/-- Witness of C16: the change from PWM to UART, and `input UART` in the mode
UART. -/
theorem C16_change_input_guard_witness :
    (cliFuncChangeInput ESC_INPUT_UART (boot demoEsc).env).out
      = (boot demoEsc).env.out
          ++ (str "Input mode set to " ++ cliInputModes.getD ESC_INPUT_UART [] ++ str "\r\n") ∧
    (cliFuncInput demoCollab ⟨str "input", [], .cliFuncInput⟩ (str " UART\r")
        (cliFuncChangeInput ESC_INPUT_UART (boot demoEsc).env)).out
      = (cliFuncChangeInput ESC_INPUT_UART (boot demoEsc).env).out ++ str "ESC disarmed\r\n" :=
  ⟨(C16_change_input_guard demoCollab ⟨str "input", [], .cliFuncInput⟩ ESC_INPUT_UART
      (boot demoEsc).env).2.1 (by decide),
   ((C16_change_input_guard demoCollab ⟨str "input", [], .cliFuncInput⟩ ESC_INPUT_UART
      (cliFuncChangeInput ESC_INPUT_UART (boot demoEsc).env)).2.2.2
      (fun _ => rfl) (by decide)).1⟩

/-- C17 (amended): telemetry header.  For every frequency `Hz` from 1 to 100
given to the `telemetry` handler, the period is `1000 / Hz` and the header of
a telemetry frame prints `N = 1000 / (1000 / Hz)`, with
`Hz <= N <= 100` and `1000 / N = 1000 / Hz`: the highest frequency that has
the same period.  `N = Hz` holds for every `Hz` up to 35. -/
theorem C17_header_frequency (X : Collab) (cmd : cliCommand_t) (s : Cli) (Hz : Nat)
    (h1 : 1 ≤ Hz) (h100 : Hz ≤ 100) :
    (cliFuncTelemetry (some Hz) cmd s.env).cliTelemetry = ((1000 / Hz : Nat) : Int) ∧
    (telemetryFrame X { s with env := cliFuncTelemetry (some Hz) cmd s.env }).env.out
      = (cliFuncTelemetry (some Hz) cmd s.env).out ++ cliHome
          ++ (str "Telemetry @ " ++ fmtD ((1000 / (1000 / Hz) : Nat) : Int) ++ str " Hz\r\n\n")
          ++ X.statusText s.env.esc ++ str "\n> " ++ cstrAt s.cliBuf 0 ++ cliClearEOL ∧
    Hz ≤ 1000 / (1000 / Hz) ∧ 1000 / (1000 / Hz) ≤ 100 ∧
    1000 / (1000 / (1000 / Hz)) = 1000 / Hz ∧
    (Hz ≤ 35 → 1000 / (1000 / Hz) = Hz) := by
  have hgt : ¬ (100 < Hz) := by omega
  have hpos : 0 < Hz := by omega
  have hP : (cliFuncTelemetry (some Hz) cmd s.env).cliTelemetry = ((1000 / Hz : Nat) : Int) := by
    simp only [cliFuncTelemetry, gt_iff_lt, hgt, if_false, hpos, if_true,
      serialWrite_cliTelemetry, serialPrint_cliTelemetry]
    exact (tdiv_1000_range Hz hpos h100).1
  have hesc : (cliFuncTelemetry (some Hz) cmd s.env).esc = s.env.esc := by
    simp only [cliFuncTelemetry, gt_iff_lt, hgt, if_false, hpos, if_true]
    rfl
  have harith : ∀ n : Nat, 1 ≤ n → n ≤ 100 →
      n ≤ 1000 / (1000 / n) ∧ 1000 / (1000 / n) ≤ 100 ∧
      1000 / (1000 / (1000 / n)) = 1000 / n ∧ (n ≤ 35 → 1000 / (1000 / n) = n) := by
    intro n hn1 hn100
    interval_cases n <;> decide
  refine ⟨hP, ?_, harith Hz h1 h100⟩
  rw [telemetryFrame_out]
  simp only [frameText, hP, hesc, Int.tdiv]
  simp only [List.append_assoc]
  rfl

set_option maxRecDepth 100000 in
/-- Witness of C17 (amended): `telemetry 7`, period 142 ms, header 7 Hz. -/
theorem C17_header_frequency_witness :
    (cliFuncTelemetry (some 7) ⟨str "telemetry", str "<Hz>", .cliFuncTelemetry⟩
        (boot demoEsc).env).cliTelemetry = ((1000 / 7 : Nat) : Int) ∧
    (1000 : Nat) / (1000 / 7) = 7 :=
  ⟨(C17_header_frequency demoCollab ⟨str "telemetry", str "<Hz>", .cliFuncTelemetry⟩
      (boot demoEsc) 7 (by decide) (by decide)).1,
   (C17_header_frequency demoCollab ⟨str "telemetry", str "<Hz>", .cliFuncTelemetry⟩
      (boot demoEsc) 7 (by decide) (by decide)).2.2.2.2.2 (by decide)⟩

set_option maxRecDepth 100000 in
/-- C17, the claim as stated fails: `telemetry 60` is accepted and sets the
period to 16 ms, and the header of the telemetry frame then reports 62 Hz. -/
theorem C17_counterexample :
    (cliFuncTelemetry (some 60) ⟨str "telemetry", str "<Hz>", .cliFuncTelemetry⟩
        (boot demoEsc).env).cliTelemetry = 16 ∧
    Int.tdiv 1000 (cliFuncTelemetry (some 60) ⟨str "telemetry", str "<Hz>", .cliFuncTelemetry⟩
        (boot demoEsc).env).cliTelemetry = 62 ∧
    (str "Telemetry @ 62 Hz\r\n\n").isPrefixOf
      ((telemetryFrame demoCollab
        { boot demoEsc with
          env := cliFuncTelemetry (some 60) ⟨str "telemetry", str "<Hz>", .cliFuncTelemetry⟩
            (boot demoEsc).env }).env.out.drop 11) = true := by
  decide

/-! ## The value text of `set` -/

set_option maxRecDepth 100000 in
/-- C19, evaluation at failing inputs.  The value is scanned from
`cmdLine + strlen(param)+1`, wherever the parameter token ends.  With one
blank before the name the text is what follows the token (`set FOO 1.5` sets
1.5, `set FF1TERM 5` sets 5).  With two blanks before `FOO` the text is
`O 1.5`, nothing is scanned and nothing is set; with six blanks before
`FF1TERM` the text is `1TERM 5`, and the parameter is set to 1 instead of 5.
Whatever the collaborators: when no number is scanned from `O 1.5`, the line
`set  FOO 1.5` sets nothing. -/
theorem C19_set_value_text :
    (∀ (K : Modules) (cmd : cliCommand_t) (fw : Fw), K.sscanf_f (str "O 1.5\r") = none →
      (cliFuncSet K cmd (str "  FOO 1.5\r") fw).calls = fw.calls) ∧
    sscanf_s 32 (str " FOO 1.5\r") = some (str "FOO") ∧
    setValueText (str " FOO 1.5\r") (str "FOO") = str " 1.5\r" ∧
    (cliFuncSet demoModules ⟨str "set", [], .cliFuncSet⟩ (str " FOO 1.5\r") demoFw).calls
      = [Call.configSetParamByID 1 (mkRat 3 2)] ∧
    (cliFuncSet demoModules ⟨str "set", [], .cliFuncSet⟩ (str " FF1TERM 5\r") demoFw).calls
      = [Call.configSetParamByID 5 5] ∧
    sscanf_s 32 (str "  FOO 1.5\r") = some (str "FOO") ∧
    setValueText (str "  FOO 1.5\r") (str "FOO") = str "O 1.5\r" ∧
    (cliFuncSet demoModules ⟨str "set", [], .cliFuncSet⟩ (str "  FOO 1.5\r") demoFw).calls
      = [] ∧
    sscanf_s 32 (str "      FF1TERM 5\r") = some (str "FF1TERM") ∧
    setValueText (str "      FF1TERM 5\r") (str "FF1TERM") = str "1TERM 5\r" ∧
    (cliFuncSet demoModules ⟨str "set", [], .cliFuncSet⟩ (str "      FF1TERM 5\r")
        demoFw).calls
      = [Call.configSetParamByID 5 1] := by
  refine ⟨?_, by decide⟩
  intro K cmd fw hscan
  have h1 : sscanf_s 32 (str "  FOO 1.5\r") = some (str "FOO") := by decide
  have h2 : ¬ strcasecmp (str "FOO") (str "list") = 0 := by decide
  have h3 : setValueText (str "  FOO 1.5\r") (str "FOO") = str "O 1.5\r" := by decide
  simp only [cliFuncSet, h1, h2, if_false, h3, hscan]
  split <;> rfl

end Esc32
